import Mathlib

/-!
# Unscented Kalman filter of `src/src/ukf.cpp` / `src/src/ukf.h`

A shallow embedding of the class `UKF`.  The object is a record that every
member function takes and returns.  A C++ `double` is modelled by a real
number, so all statements are statements of exact real arithmetic; `long long`
time stamps are integers.  Eigen vectors and matrices of fixed shape are
functions on `Fin n` and Mathlib matrices.  Two Eigen library calls are not
part of the sources: the Cholesky factor `P_aug_.llt().matrixL()` is a
parameter `llt` of `Prediction`, and `S.inverse()` is the (total) matrix
inverse of Mathlib.  `sin`, `cos`, `sqrt` and `M_PI` are the real functions and
the real number pi, `atan2` is the argument of a point of the plane.  The member
functions are total here; on three kinds of input the code has no real-number
value where they have one: a quotient by the range `rho = 0` and `S.inverse()`
of a singular `S` (NaN or an infinity in the code, the real number `0` here),
and a `long long` subtraction that overflows (the exact difference here).  The
section "The domain on which the real numbers stand for the code" gives
`UpdateLidarChecked`, `UpdateRadarChecked`, `ProcessMeasurementChecked` and
`processAllChecked`, which return `none` on exactly those inputs; statements that
depend on the difference are made about them.  A `for` loop is a left fold over
its index range; the lemmas of the section "Loops as sums and tables" turn the
folds into sums and tables.
-/

namespace UKF

open Matrix

noncomputable section

/-! ## Data model -/

/-- Modelled from the spec: the sensor-type enumeration of `measurement_package.h`,
which is not among the sources (`LINEAR` is the laser, `NONLINEAR` the radar). -/
inductive SensorType where
  | LASER
  | RADAR
deriving DecidableEq

/-- Modelled from the spec: the measurement record of `measurement_package.h`, which is
not among the sources: a time stamp in microseconds, the sensor type and the raw
values (two for the laser, three for the radar; the laser leaves entry 2 unread). -/
structure MeasurementPackage where
  timestamp_ : ℤ
  sensor_type_ : SensorType
  raw_measurements_ : Fin 3 → ℝ

/-- Process noise standard deviation, longitudinal acceleration (`ukf.h:17`). -/
def std_a_ : ℝ := 3

/-- Process noise standard deviation, yaw acceleration (`ukf.h:20`). -/
def std_yawdd_ : ℝ := 0.5

/-- Laser noise standard deviation, position 1 (`ukf.h:24`). -/
def std_laspx_ : ℝ := 0.15

/-- Laser noise standard deviation, position 2 (`ukf.h:27`). -/
def std_laspy_ : ℝ := 0.15

/-- Radar noise standard deviation, radius (`ukf.h:30`). -/
def std_radr_ : ℝ := 0.3

/-- Radar noise standard deviation, angle (`ukf.h:33`). -/
def std_radphi_ : ℝ := 0.03

/-- Radar noise standard deviation, radius change (`ukf.h:36`). -/
def std_radrd_ : ℝ := 0.3

/-- State dimension (`ukf.h:40`). -/
abbrev n_x_ : ℕ := 5

/-- Augmented state dimension (`ukf.h:43`). -/
abbrev n_aug_ : ℕ := n_x_ + 2

/-- Number of sigma points (`ukf.h:45`). -/
abbrev n_aug_size : ℕ := 2 * n_aug_ + 1

/-- Sigma point spreading parameter, `static_cast<double>(3 - n_x_)` (`ukf.h:48`). -/
def lambda_ : ℝ := ((3 - (n_x_ : ℤ) : ℤ) : ℝ)

/-- Laser measurement noise, as filled in by the constructor (`ukf.cpp:33-34`). -/
def laser_R : Matrix (Fin 2) (Fin 2) ℝ :=
  !![std_laspx_ * std_laspx_, 0;
     0, std_laspy_ * std_laspy_]

/-- Radar measurement noise, as filled in by the constructor (`ukf.cpp:36-38`). -/
def radar_R : Matrix (Fin 3) (Fin 3) ℝ :=
  !![std_radr_ * std_radr_, 0, 0;
     0, std_radphi_ * std_radphi_, 0;
     0, 0, std_radrd_ * std_radrd_]

/-- The mutable members of the class `UKF` (`ukf.h:60-90`). -/
structure State where
  use_laser_ : Bool
  use_radar_ : Bool
  time_us_ : ℤ
  delta_t : ℝ
  x_ : Fin 5 → ℝ
  P_ : Matrix (Fin 5) (Fin 5) ℝ
  Xsig_pred_ : Matrix (Fin 5) (Fin 15) ℝ
  weights_ : Fin 15 → ℝ
  NIS_radar_ : ℝ
  NIS_laser_ : ℝ

/-- The constructor `UKF::UKF(use_laser, use_radar)` together with the member
initialisers of `ukf.h`.  The Eigen members and `delta_t` are allocated but not
written, so their contents come from `storage`; the flags, the clock `-1` and the
two NIS values `0` are set. -/
def construct (use_laser use_radar : Bool) (storage : State) : State :=
  { storage with
    use_laser_ := use_laser
    use_radar_ := use_radar
    time_us_ := -1
    NIS_radar_ := 0
    NIS_laser_ := 0 }

/-- The loop `for (int i = 0; i < n; ++i) body`, threading the variables the body
writes. -/
def forLoop {σ : Type} (n : ℕ) (body : Fin n → σ → σ) (start : σ) : σ :=
  (List.finRange n).foldl (fun acc i => body i acc) start

/-- The column `M.col(i)` of an Eigen matrix. -/
def column {m n : ℕ} (M : Matrix (Fin m) (Fin n) ℝ) (i : Fin n) : Fin m → ℝ :=
  fun r => M r i

/-! ## Measurement gate and first-measurement set-up -/

/-- `UKF::isSupported` (`ukf.cpp:44-49`). -/
def isSupported (s : State) (meas_package : MeasurementPackage) : Bool :=
  match meas_package.sensor_type_ with
  | SensorType.RADAR => s.use_radar_
  | SensorType.LASER => s.use_laser_

/-- `UKF::radarInit` (`ukf.cpp:73-86`). -/
def radarInit (s : State) (meas_package : MeasurementPackage) : State :=
  let rho := meas_package.raw_measurements_ 0
  let phi := meas_package.raw_measurements_ 1
  let rhodot := meas_package.raw_measurements_ 2
  { s with
    x_ := ![rho * Real.cos phi, rho * Real.sin phi, 4, rhodot * Real.cos phi,
            rhodot * Real.sin phi]
    P_ := !![std_radr_ * std_radr_, 0, 0, 0, 0;
             0, std_radr_ * std_radr_, 0, 0, 0;
             0, 0, 1, 0, 0;
             0, 0, 0, std_radphi_, 0;
             0, 0, 0, 0, std_radphi_] }

/-- `UKF::lidarInit` (`ukf.cpp:88-98`). -/
def lidarInit (s : State) (meas_package : MeasurementPackage) : State :=
  { s with
    x_ := ![meas_package.raw_measurements_ 0, meas_package.raw_measurements_ 1, 4, 0.5, 0.0]
    P_ := !![std_laspx_ * std_laspx_, 0, 0, 0, 0;
             0, std_laspy_ * std_laspy_, 0, 0, 0;
             0, 0, 1, 0, 0;
             0, 0, 0, 1, 0;
             0, 0, 0, 0, 1] }

/-- `UKF::init` (`ukf.cpp:51-71`): the returned flag and the object afterwards. -/
def init (s : State) (meas_package : MeasurementPackage) : Bool × State :=
  if s.time_us_ < 0 then
    match meas_package.sensor_type_ with
    | SensorType.RADAR =>
        (false, { radarInit s meas_package with time_us_ := meas_package.timestamp_ })
    | SensorType.LASER =>
        (false, { lidarInit s meas_package with time_us_ := meas_package.timestamp_ })
  else
    (true, { s with
      delta_t := ((meas_package.timestamp_ - s.time_us_ : ℤ) : ℝ) / 1000000.0
      time_us_ := meas_package.timestamp_ })

/-! ## Angle normaliser -/

/-- `UKF::normalizeAngles` (`ukf.cpp:362-369`), with `M_PI` the real number pi.
An index outside the vector (never passed by the callers) leaves it alone. -/
def normalizeAngles {n : ℕ} (i : ℕ) (vect : Fin n → ℝ) : Fin n → ℝ :=
  if h : i < n then
    if vect ⟨i, h⟩ > Real.pi then
      Function.update vect ⟨i, h⟩ (vect ⟨i, h⟩ - 2 * Real.pi)
    else if vect ⟨i, h⟩ < -Real.pi then
      Function.update vect ⟨i, h⟩ (vect ⟨i, h⟩ + 2 * Real.pi)
    else vect
  else vect

/-! ## Prediction -/

/-- The augmented mean `x_aug_` (`ukf.cpp:134-136`). -/
def x_aug_ (s : State) : Fin 7 → ℝ :=
  fun i => if h : i.val < 5 then s.x_ ⟨i.val, h⟩ else 0

/-- The process noise block `Q` (`ukf.cpp:139-141`). -/
def Q : Matrix (Fin 2) (Fin 2) ℝ :=
  !![std_a_ * std_a_, 0;
     0, std_yawdd_ * std_yawdd_]

/-- The augmented covariance `P_aug_` (`ukf.cpp:142-144`). -/
def P_aug_ (s : State) : Matrix (Fin 7) (Fin 7) ℝ :=
  fun i j =>
    if h : i.val < 5 ∧ j.val < 5 then s.P_ ⟨i.val, h.1⟩ ⟨j.val, h.2⟩
    else if h : 5 ≤ i.val ∧ 5 ≤ j.val then
      Q ⟨i.val - 5, by omega⟩ ⟨j.val - 5, by omega⟩
    else 0

/-- The augmented sigma points `Xsig_aug_` (`ukf.cpp:150-154`); the matrix is
allocated unwritten and every column is assigned. -/
def Xsig_aug_ (x_aug : Fin 7 → ℝ) (A_aug : Matrix (Fin 7) (Fin 7) ℝ) :
    Matrix (Fin 7) (Fin 15) ℝ :=
  forLoop 7
    (fun i X =>
      (X.updateColumn ⟨i.val + 1, by omega⟩
          (x_aug + Real.sqrt (lambda_ + n_aug_) • column A_aug i)).updateColumn
        ⟨i.val + 1 + n_aug_, by show i.val + 1 + 7 < 15; omega⟩
        (x_aug - Real.sqrt (lambda_ + n_aug_) • column A_aug i))
    ((0 : Matrix (Fin 7) (Fin 15) ℝ).updateColumn 0 x_aug)

/-- The vector `vec1` of the motion model (`ukf.cpp:174-188`). -/
def vec1 (delta_t : ℝ) (calc_col : Fin 7 → ℝ) : Fin 5 → ℝ :=
  let v := calc_col 2
  let yaw := calc_col 3
  let yawd := calc_col 4
  if yawd > 0.001 then
    ![(v / yawd) * (Real.sin (yaw + yawd * delta_t) - Real.sin yaw),
      (v / yawd) * (-Real.cos (yaw + yawd * delta_t) + Real.cos yaw),
      0,
      yawd * delta_t,
      0]
  else
    ![v * Real.cos yaw * delta_t,
      v * Real.sin yaw * delta_t,
      0,
      yawd * delta_t,
      0]

/-- The vector `vec2` of the motion model (`ukf.cpp:191-195`). -/
def vec2 (delta_t : ℝ) (calc_col : Fin 7 → ℝ) : Fin 5 → ℝ :=
  let yaw := calc_col 3
  let v_aug := calc_col 5
  let v_yawdd := calc_col 6
  ![0.5 * delta_t * delta_t * Real.cos yaw * v_aug,
    0.5 * delta_t * delta_t * Real.sin yaw * v_aug,
    delta_t * v_aug,
    0.5 * delta_t * delta_t * v_yawdd,
    delta_t * v_yawdd]

/-- One predicted sigma point, `orig + vec1 + vec2` (`ukf.cpp:162-198`). -/
def predictSigmaPoint (delta_t : ℝ) (calc_col : Fin 7 → ℝ) : Fin 5 → ℝ :=
  let orig : Fin 5 → ℝ := fun r => calc_col (Fin.castLE (by omega) r)
  orig + vec1 delta_t calc_col + vec2 delta_t calc_col

/-- The loop that fills `Xsig_pred_` (`ukf.cpp:161-199`). -/
def predictSigmaPoints (delta_t : ℝ) (Xsig_aug : Matrix (Fin 7) (Fin 15) ℝ)
    (Xsig_pred : Matrix (Fin 5) (Fin 15) ℝ) : Matrix (Fin 5) (Fin 15) ℝ :=
  forLoop 15 (fun i X => X.updateColumn i (predictSigmaPoint delta_t (column Xsig_aug i)))
    Xsig_pred

/-- The loop that sets the weights and accumulates `x_pred` (`ukf.cpp:206-214`). -/
def weightsAndMean (Xsig_pred : Matrix (Fin 5) (Fin 15) ℝ) (weights : Fin 15 → ℝ) :
    (Fin 15 → ℝ) × (Fin 5 → ℝ) :=
  forLoop 15
    (fun i wx =>
      let w := Function.update wx.1 i
        (if i.val = 0 then lambda_ / (lambda_ + n_aug_) else 0.5 / (lambda_ + n_aug_))
      (w, wx.2 + w i • column Xsig_pred i))
    (weights, 0)

/-- The loop that accumulates `P_pred` (`ukf.cpp:207`, `216-222`). -/
def predictedCovariance (Xsig_pred : Matrix (Fin 5) (Fin 15) ℝ) (weights : Fin 15 → ℝ)
    (x_pred : Fin 5 → ℝ) : Matrix (Fin 5) (Fin 5) ℝ :=
  forLoop 15
    (fun i P =>
      let x_diff := normalizeAngles 3 (column Xsig_pred i - x_pred)
      P + vecMulVec (weights i • x_diff) x_diff)
    0

/-- `UKF::Prediction` (`ukf.cpp:124-226`); `llt` is Eigen's lower Cholesky factor. -/
def Prediction (llt : Matrix (Fin 7) (Fin 7) ℝ → Matrix (Fin 7) (Fin 7) ℝ) (s : State) :
    State :=
  let A_aug := llt (P_aug_ s)
  let Xsig_aug := Xsig_aug_ (x_aug_ s) A_aug
  let Xsig_pred := predictSigmaPoints s.delta_t Xsig_aug s.Xsig_pred_
  let wx := weightsAndMean Xsig_pred s.weights_
  let P_pred := predictedCovariance Xsig_pred wx.1 wx.2
  { s with
    Xsig_pred_ := Xsig_pred
    weights_ := wx.1
    x_ := wx.2
    P_ := P_pred }

/-! ## Measurement update -/

/-- `UKF::calculateMeasurementCovarianceMatrix` (`ukf.cpp:315-328`). -/
def calculateMeasurementCovarianceMatrix {size : ℕ} (s : State)
    (sig : Matrix (Fin size) (Fin 15) ℝ) (pred : Fin size → ℝ)
    (R : Matrix (Fin size) (Fin size) ℝ) (normalize : Bool) :
    Matrix (Fin size) (Fin size) ℝ :=
  forLoop 15
    (fun i S =>
      let diff := column sig i - pred
      let diff := if normalize then normalizeAngles 1 diff else diff
      S + vecMulVec (s.weights_ i • diff) diff)
    0
  + R

/-- `UKF::calculateCrossCorrelationMatrix` (`ukf.cpp:330-344`). -/
def calculateCrossCorrelationMatrix {size : ℕ} (s : State)
    (Zsig : Matrix (Fin size) (Fin 15) ℝ) (z_pred : Fin size → ℝ) (normalize : Bool) :
    Matrix (Fin 5) (Fin size) ℝ :=
  forLoop 15
    (fun i Tc =>
      let x_diff := normalizeAngles 3 (column s.Xsig_pred_ i - s.x_)
      let z_diff := column Zsig i - z_pred
      let z_diff := if normalize then normalizeAngles 1 z_diff else z_diff
      Tc + vecMulVec (s.weights_ i • x_diff) z_diff)
    0

/-- `UKF::updateState` (`ukf.cpp:346-360`): the value written through `nis` and the
object afterwards. -/
def updateState {size : ℕ} (s : State) (Tc : Matrix (Fin 5) (Fin size) ℝ)
    (S : Matrix (Fin size) (Fin size) ℝ) (z z_pred : Fin size → ℝ) (normalize : Bool) :
    ℝ × State :=
  let z_diff := z - z_pred
  let z_diff := if normalize then normalizeAngles 1 z_diff else z_diff
  let nis := (z_diff ᵥ* S⁻¹) ⬝ᵥ z_diff
  let K := Tc * S⁻¹
  (nis, { s with
    x_ := s.x_ + K *ᵥ z_diff
    P_ := s.P_ - K * S * Kᵀ })

/-- The first loop of `UKF::UpdateLidar` (`ukf.cpp:234-248`): `Zsig` and `z_pred`. -/
def lidarPrediction (s : State) : Matrix (Fin 2) (Fin 15) ℝ × (Fin 2 → ℝ) :=
  forLoop 15
    (fun i Zz =>
      let state_vec := column s.Xsig_pred_ i
      let Zsig := Zz.1.updateColumn i ![state_vec 0, state_vec 1]
      (Zsig, Zz.2 + s.weights_ i • column Zsig i))
    (0, 0)

/-- `UKF::UpdateLidar` (`ukf.cpp:232-263`). -/
def UpdateLidar (s : State) (meas_package : MeasurementPackage) : State :=
  let Zsig := (lidarPrediction s).1
  let z_pred := (lidarPrediction s).2
  let S := calculateMeasurementCovarianceMatrix s Zsig z_pred laser_R false
  let z : Fin 2 → ℝ := ![meas_package.raw_measurements_ 0, meas_package.raw_measurements_ 1]
  let Tc := calculateCrossCorrelationMatrix s Zsig z_pred false
  let r := updateState s Tc S z z_pred false
  { r.2 with NIS_laser_ := r.1 }

/-- The C function `atan2(y, x)`, the argument of the point `(x, y)`. -/
def atan2 (y x : ℝ) : ℝ := Complex.arg ⟨x, y⟩

/-- The first loop of `UKF::UpdateRadar` (`ukf.cpp:271-298`): `Zsig` and `z_pred`. -/
def radarPrediction (s : State) : Matrix (Fin 3) (Fin 15) ℝ × (Fin 3 → ℝ) :=
  forLoop 15
    (fun i Zz =>
      let state_vec := column s.Xsig_pred_ i
      let px := state_vec 0
      let py := state_vec 1
      let v := state_vec 2
      let yaw := state_vec 3
      let rho := Real.sqrt (px * px + py * py)
      let phi := atan2 py px
      let rho_d := (px * Real.cos yaw * v + py * Real.sin yaw * v) / rho
      let Zsig := Zz.1.updateColumn i ![rho, phi, rho_d]
      (Zsig, Zz.2 + s.weights_ i • column Zsig i))
    (0, 0)

/-- `UKF::UpdateRadar` (`ukf.cpp:269-313`). -/
def UpdateRadar (s : State) (meas_package : MeasurementPackage) : State :=
  let Zsig := (radarPrediction s).1
  let z_pred := (radarPrediction s).2
  let S := calculateMeasurementCovarianceMatrix s Zsig z_pred radar_R true
  let z : Fin 3 → ℝ := ![meas_package.raw_measurements_ 0, meas_package.raw_measurements_ 1,
    meas_package.raw_measurements_ 2]
  let Tc := calculateCrossCorrelationMatrix s Zsig z_pred true
  let r := updateState s Tc S z z_pred true
  { r.2 with NIS_radar_ := r.1 }

/-! ## Entry point -/

/-- `UKF::ProcessMeasurement` (`ukf.cpp:104-117`). -/
def ProcessMeasurement (llt : Matrix (Fin 7) (Fin 7) ℝ → Matrix (Fin 7) (Fin 7) ℝ)
    (s : State) (meas_package : MeasurementPackage) : State :=
  if !isSupported s meas_package then s
  else
    let r := init s meas_package
    if r.1 then
      let s1 := Prediction llt r.2
      if meas_package.sensor_type_ = SensorType.RADAR then UpdateRadar s1 meas_package
      else UpdateLidar s1 meas_package
    else r.2

/-- A stream of measurements handed to `ProcessMeasurement` one after the other. -/
def processAll (llt : Matrix (Fin 7) (Fin 7) ℝ → Matrix (Fin 7) (Fin 7) ℝ)
    (s : State) (ms : List MeasurementPackage) : State :=
  ms.foldl (ProcessMeasurement llt) s

/-! ## The behaviours the specification names -/

/-- The specification's initialisation step (section 4.1): seed mean and covariance
from the measurement and set the clock, nothing else. -/
def specInitOnly (s : State) (meas_package : MeasurementPackage) : State :=
  match meas_package.sensor_type_ with
  | SensorType.RADAR => { radarInit s meas_package with time_us_ := meas_package.timestamp_ }
  | SensorType.LASER => { lidarInit s meas_package with time_us_ := meas_package.timestamp_ }

/-- The specification's full cycle (sections 2 and 6): elapsed time from the clock,
then `Prediction`, then the update of the measurement's sensor type. -/
def specFullCycle (llt : Matrix (Fin 7) (Fin 7) ℝ → Matrix (Fin 7) (Fin 7) ℝ)
    (s : State) (meas_package : MeasurementPackage) : State :=
  let s0 : State := { s with
    delta_t := ((meas_package.timestamp_ - s.time_us_ : ℤ) : ℝ) / 1000000
    time_us_ := meas_package.timestamp_ }
  let s1 := Prediction llt s0
  match meas_package.sensor_type_ with
  | SensorType.RADAR => UpdateRadar s1 meas_package
  | SensorType.LASER => UpdateLidar s1 meas_package

/-! ## Sample data -/

/-- Storage with every member zero and both sensors switched on. -/
def sampleStorage : State :=
  { use_laser_ := true, use_radar_ := true, time_us_ := 0, delta_t := 0, x_ := 0, P_ := 0,
    Xsig_pred_ := 0, weights_ := 0, NIS_radar_ := 0, NIS_laser_ := 0 }

/-- A square root that is the Cholesky factor of every diagonal matrix. -/
def sampleLlt (M : Matrix (Fin 7) (Fin 7) ℝ) : Matrix (Fin 7) (Fin 7) ℝ :=
  Matrix.diagonal (fun i => Real.sqrt (M i i))

/-- A laser measurement of the point `(3, 4)` at time `t`. -/
def sampleLaser (t : ℤ) : MeasurementPackage :=
  { timestamp_ := t, sensor_type_ := SensorType.LASER, raw_measurements_ := ![3, 4, 0] }

/-- A radar measurement `rho = 5`, `phi = 0`, `rhodot = 1` at time `t`. -/
def sampleRadar (t : ℤ) : MeasurementPackage :=
  { timestamp_ := t, sensor_type_ := SensorType.RADAR, raw_measurements_ := ![5, 0, 1] }

/-- A laser measurement of the point `(0, 0)` at time `t`. -/
def originLaser (t : ℤ) : MeasurementPackage :=
  { timestamp_ := t, sensor_type_ := SensorType.LASER, raw_measurements_ := ![0, 0, 0] }

/-- The measurement matrix `H = [I2 | 0]` of the linear Kalman update, two rows and five
columns, to which the laser update is compared. -/
def measurementMatrix : Matrix (Fin 2) (Fin 5) ℝ :=
  fun a j => if j.val = a.val then 1 else 0

/-- The `if` branch of `vec1` (`ukf.cpp:176-180`), the displacement of a turning sigma
point, as a function of speed `v`, heading `yaw`, turn rate `yawd` and elapsed time. -/
def turningDisplacement (v yaw yawd delta_t : ℝ) : Fin 5 → ℝ :=
  ![(v / yawd) * (Real.sin (yaw + yawd * delta_t) - Real.sin yaw),
    (v / yawd) * (-Real.cos (yaw + yawd * delta_t) + Real.cos yaw),
    0,
    yawd * delta_t,
    0]

/-- The `else` branch of `vec1` (`ukf.cpp:183-187`), the displacement of a sigma point
that moves straight on. -/
def straightDisplacement (v yaw yawd delta_t : ℝ) : Fin 5 → ℝ :=
  ![v * Real.cos yaw * delta_t,
    v * Real.sin yaw * delta_t,
    0,
    yawd * delta_t,
    0]

/-- The deterministic displacement as the specification words it (section 4.3): the
turning formula whenever the absolute value of the turn rate exceeds `0.001`, the
straight-line formula otherwise. -/
def specDisplacement (v yaw yawd delta_t : ℝ) : Fin 5 → ℝ :=
  if |yawd| > 0.001 then turningDisplacement v yaw yawd delta_t
  else straightDisplacement v yaw yawd delta_t

/-- An augmented sigma point with speed 1, heading 0 and turn rate `-1`. -/
def leftTurnPoint : Fin 7 → ℝ := ![0, 0, 1, 0, -1, 0, 0]

/-- Zero storage with the identity matrix as covariance. -/
def unitStorage : State := { sampleStorage with P_ := 1 }

/-- Zero storage with minus the identity matrix as covariance, which is not
positive-definite. -/
def negativeStorage : State := { sampleStorage with P_ := -1 }

/-- The lower triangle of a matrix: what the `matrixL()` view shows of a matrix that the
factorisation has not touched. -/
def lowerTriangle (M : Matrix (Fin 7) (Fin 7) ℝ) : Matrix (Fin 7) (Fin 7) ℝ :=
  fun i j => if j ≤ i then M i j else 0

/-- The diagonal of `P_aug_` when `P_` is `c` times the identity: five times `c`, then
the process noise variances `std_a_^2 = 9` and `std_yawdd_^2 = 1/4`. -/
def augmentedDiagonal (c : ℝ) : Fin 7 → ℝ :=
  fun i => if i.val < 5 then c else if i.val = 5 then 9 else 1 / 4

/-- An initialised filter (clock 0) with the laser switched off and the radar on. -/
def radarOnlyStorage : State := { sampleStorage with use_laser_ := false }

/-- An initialised filter with the clock at 1. -/
def clockOneStorage : State := { sampleStorage with time_us_ := 1 }

/-- A state whose two non-zero sigma points `(0.15, 0)` and `(-0.15, 0)` carry the weight
`-1/2` each: the predicted measurement is `(0, 0)` and the innovation covariance is
`diag(0, 0.0225)`, which is singular. -/
def singularStorage : State :=
  { sampleStorage with
    Xsig_pred_ := fun r c =>
      if r.val = 0 ∧ c.val = 0 then 0.15 else if r.val = 0 ∧ c.val = 1 then -0.15 else 0
    weights_ := fun c => if c.val = 0 ∨ c.val = 1 then -1 / 2 else 0 }

/-! ## The domain on which the real numbers stand for the code

Three operations of the code have no real-number value on some inputs: the quotient by the
range `rho` in `UpdateRadar` (`0/0`, a NaN, when a predicted sigma point lies at the
origin), `S.inverse()` for a singular `S` (a division by the zero determinant, NaN and
infinities), and the `long long` subtraction of `init` when it overflows.  On such an input
the functions above still return real numbers, which the code does not.  The definitions
of this section make the domain explicit: they return `none` exactly there, and the value
of the functions above everywhere else. -/

/-- The innovation covariance `S` of `UpdateLidar` (`ukf.cpp:251`). -/
def lidarS (s : State) : Matrix (Fin 2) (Fin 2) ℝ :=
  calculateMeasurementCovarianceMatrix s (lidarPrediction s).1 (lidarPrediction s).2
    laser_R false

/-- The innovation covariance `S` of `UpdateRadar` (`ukf.cpp:301`). -/
def radarS (s : State) : Matrix (Fin 3) (Fin 3) ℝ :=
  calculateMeasurementCovarianceMatrix s (radarPrediction s).1 (radarPrediction s).2
    radar_R true

/-- The range `rho` of the predicted sigma point `i` (`ukf.cpp:288`), by which
`ukf.cpp:290` divides. -/
def radarRange (s : State) (i : Fin 15) : ℝ :=
  Real.sqrt (s.Xsig_pred_ 0 i * s.Xsig_pred_ 0 i + s.Xsig_pred_ 1 i * s.Xsig_pred_ 1 i)

/-- `UKF::UpdateLidar` (`ukf.cpp:232-263`) with its domain: for a singular `S` the code
writes NaN into `x_`, `P_` and `NIS_laser_`, and there is no real-valued result. -/
def UpdateLidarChecked (s : State) (meas_package : MeasurementPackage) : Option State :=
  if (lidarS s).det = 0 then none else some (UpdateLidar s meas_package)

/-- `UKF::UpdateRadar` (`ukf.cpp:269-313`) with its domain: for a sigma point of range
`rho = 0` or a singular `S` the code writes NaN into `x_`, `P_` and `NIS_radar_`, and
there is no real-valued result. -/
def UpdateRadarChecked (s : State) (meas_package : MeasurementPackage) : Option State :=
  if (∃ i : Fin 15, radarRange s i = 0) ∨ (radarS s).det = 0 then none
  else some (UpdateRadar s meas_package)

/-- `UKF::ProcessMeasurement` (`ukf.cpp:104-117`) with its domain: the subtraction of the
time stamps at `ukf.cpp:67` has to fit a `long long`, and the update has to be defined. -/
def ProcessMeasurementChecked (llt : Matrix (Fin 7) (Fin 7) ℝ → Matrix (Fin 7) (Fin 7) ℝ)
    (s : State) (meas_package : MeasurementPackage) : Option State :=
  if !isSupported s meas_package then some s
  else if 0 ≤ s.time_us_
      ∧ ¬ (-(2 : ℤ) ^ 63 ≤ meas_package.timestamp_ - s.time_us_
        ∧ meas_package.timestamp_ - s.time_us_ < (2 : ℤ) ^ 63) then none
  else
    let r := init s meas_package
    if r.1 then
      let s1 := Prediction llt r.2
      if meas_package.sensor_type_ = SensorType.RADAR then UpdateRadarChecked s1 meas_package
      else UpdateLidarChecked s1 meas_package
    else some r.2

/-- A stream of measurements handed to `ProcessMeasurement` one after the other, with its
domain: once a call has no real-valued result, none of the later calls has one. -/
def processAllChecked (llt : Matrix (Fin 7) (Fin 7) ℝ → Matrix (Fin 7) (Fin 7) ℝ)
    (s : State) (ms : List MeasurementPackage) : Option State :=
  ms.foldlM (ProcessMeasurementChecked llt) s

/-- The 64-bit two's-complement value of an integer. -/
def wrapLongLong (x : ℤ) : ℤ := (x + 2 ^ 63) % 2 ^ 64 - 2 ^ 63

/-- The elapsed time `delta_t` as `ukf.cpp:67` computes it when the `long long`
subtraction wraps around (an overflow is undefined in C++; two's-complement hardware
delivers the wrapped value). -/
def machineDeltaT (s : State) (meas_package : MeasurementPackage) : ℝ :=
  ((wrapLongLong (meas_package.timestamp_ - s.time_us_) : ℤ) : ℝ) / 1000000.0

/-- The state is as `Prediction` leaves it: the mean is the weighted sum of the predicted
sigma points, and the covariance is the weighted sum of the outer products of the
heading-normalised residuals. -/
def Predicted (s : State) : Prop :=
  s.x_ = ∑ i : Fin 15, s.weights_ i • column s.Xsig_pred_ i
    ∧ s.P_ = ∑ i : Fin 15,
        vecMulVec (s.weights_ i • normalizeAngles 3 (column s.Xsig_pred_ i - s.x_))
          (normalizeAngles 3 (column s.Xsig_pred_ i - s.x_))

end

/-! ## Loops as sums and tables -/

theorem foldl_add_eq {α β : Type} [AddCommMonoid β] (f : α → β) (l : List α) (b : β) :
    l.foldl (fun acc i => acc + f i) b = b + (l.map f).sum := by
  induction l generalizing b with
  | nil => simp
  | cons a l ih => simp [ih, add_assoc]

theorem forLoop_add {β : Type} [AddCommMonoid β] (n : ℕ) (f : Fin n → β) (b : β) :
    forLoop n (fun i acc => acc + f i) b = b + ∑ i, f i := by
  rw [forLoop, foldl_add_eq, Fin.sum_univ_def]

theorem foldl_pair {α σ β : Type} [AddCommMonoid β] (F : α → σ → σ) (g : α → β)
    (l : List α) (a : σ) (b : β) :
    l.foldl (fun p i => (F i p.1, p.2 + g i)) (a, b)
      = (l.foldl (fun acc i => F i acc) a, b + (l.map g).sum) := by
  induction l generalizing a b with
  | nil => simp
  | cons c l ih => simp [ih, add_assoc]

theorem forLoop_pair {σ β : Type} [AddCommMonoid β] (n : ℕ) (F : Fin n → σ → σ)
    (g : Fin n → β) (a : σ) (b : β) :
    forLoop n (fun i p => (F i p.1, p.2 + g i)) (a, b)
      = (forLoop n F a, b + ∑ i, g i) := by
  rw [forLoop, foldl_pair, Fin.sum_univ_def]; rfl

theorem foldl_updateColumn {m n : ℕ} (v : Fin n → Fin m → ℝ) (l : List (Fin n))
    (X0 : Matrix (Fin m) (Fin n) ℝ) :
    l.foldl (fun X i => X.updateColumn i (v i)) X0
      = fun r c => if c ∈ l then v c r else X0 r c := by
  induction l generalizing X0 with
  | nil => simp
  | cons a l ih =>
    rw [List.foldl_cons, ih]
    funext r c
    by_cases h1 : c ∈ l
    · simp [h1]
    · by_cases h2 : c = a
      · subst h2; simp [h1]
      · simp [h1, h2, updateColumn_apply]

theorem forLoop_updateColumn {m n : ℕ} (v : Fin n → Fin m → ℝ)
    (X0 : Matrix (Fin m) (Fin n) ℝ) :
    forLoop n (fun i X => X.updateColumn i (v i)) X0 = fun r c => v c r := by
  rw [forLoop, foldl_updateColumn]
  funext r c
  simp [List.mem_finRange]

theorem foldl_update {n : ℕ} (wt : Fin n → ℝ) (l : List (Fin n)) (w0 : Fin n → ℝ) :
    l.foldl (fun w i => Function.update w i (wt i)) w0
      = fun j => if j ∈ l then wt j else w0 j := by
  induction l generalizing w0 with
  | nil => simp
  | cons a l ih =>
    rw [List.foldl_cons, ih]
    funext j
    by_cases h1 : j ∈ l
    · simp [h1]
    · by_cases h2 : j = a
      · subst h2; simp [h1]
      · simp [h1, h2, Function.update_noteq]

theorem forLoop_update {n : ℕ} (wt : Fin n → ℝ) (w0 : Fin n → ℝ) :
    forLoop n (fun i w => Function.update w i (wt i)) w0 = wt := by
  rw [forLoop, foldl_update]
  funext j
  simp [List.mem_finRange]

theorem column_updateColumn_same {m n : ℕ} (M : Matrix (Fin m) (Fin n) ℝ) (i : Fin n)
    (v : Fin m → ℝ) : column (M.updateColumn i v) i = v := by
  funext r
  simp [column]

/-! ## The pieces of `Prediction` in closed form -/

theorem predictSigmaPoints_eq (delta_t : ℝ) (Xa : Matrix (Fin 7) (Fin 15) ℝ)
    (X0 : Matrix (Fin 5) (Fin 15) ℝ) :
    predictSigmaPoints delta_t Xa X0
      = fun r c => predictSigmaPoint delta_t (column Xa c) r := by
  unfold predictSigmaPoints
  rw [forLoop_updateColumn]

theorem weightsAndMean_eq (X : Matrix (Fin 5) (Fin 15) ℝ) (w0 : Fin 15 → ℝ) :
    weightsAndMean X w0
      = (fun i => if i.val = 0 then lambda_ / (lambda_ + n_aug_) else 0.5 / (lambda_ + n_aug_),
         ∑ i : Fin 15, (if i.val = 0 then lambda_ / (lambda_ + n_aug_)
            else 0.5 / (lambda_ + n_aug_)) • column X i) := by
  unfold weightsAndMean
  simp only [Function.update_same]
  rw [forLoop_pair 15 (fun i w => Function.update w i
    (if i.val = 0 then lambda_ / (lambda_ + n_aug_) else 0.5 / (lambda_ + n_aug_)))
    (fun i => (if i.val = 0 then lambda_ / (lambda_ + n_aug_)
      else 0.5 / (lambda_ + n_aug_)) • column X i)]
  rw [forLoop_update, zero_add]

theorem predictedCovariance_eq (X : Matrix (Fin 5) (Fin 15) ℝ) (w : Fin 15 → ℝ)
    (x_pred : Fin 5 → ℝ) :
    predictedCovariance X w x_pred
      = ∑ i : Fin 15, vecMulVec (w i • normalizeAngles 3 (column X i - x_pred))
          (normalizeAngles 3 (column X i - x_pred)) := by
  unfold predictedCovariance
  rw [forLoop_add 15 (fun i => vecMulVec (w i • normalizeAngles 3 (column X i - x_pred))
    (normalizeAngles 3 (column X i - x_pred))), zero_add]

/-! ## Frame lemmas -/

theorem isSupported_congr (s t : State) (m : MeasurementPackage)
    (hl : s.use_laser_ = t.use_laser_) (hr : s.use_radar_ = t.use_radar_) :
    isSupported s m = isSupported t m := by
  unfold isSupported
  cases m.sensor_type_ <;> simp [hl, hr]

theorem Prediction_frame (llt : Matrix (Fin 7) (Fin 7) ℝ → Matrix (Fin 7) (Fin 7) ℝ)
    (s : State) :
    (Prediction llt s).use_laser_ = s.use_laser_ ∧ (Prediction llt s).use_radar_ = s.use_radar_
      ∧ (Prediction llt s).time_us_ = s.time_us_ :=
  ⟨rfl, rfl, rfl⟩

theorem UpdateLidar_frame (s : State) (m : MeasurementPackage) :
    (UpdateLidar s m).use_laser_ = s.use_laser_ ∧ (UpdateLidar s m).use_radar_ = s.use_radar_
      ∧ (UpdateLidar s m).time_us_ = s.time_us_ ∧ (UpdateLidar s m).weights_ = s.weights_ :=
  ⟨rfl, rfl, rfl, rfl⟩

theorem UpdateRadar_frame (s : State) (m : MeasurementPackage) :
    (UpdateRadar s m).use_laser_ = s.use_laser_ ∧ (UpdateRadar s m).use_radar_ = s.use_radar_
      ∧ (UpdateRadar s m).time_us_ = s.time_us_ ∧ (UpdateRadar s m).weights_ = s.weights_ :=
  ⟨rfl, rfl, rfl, rfl⟩

theorem specFullCycle_frame (llt : Matrix (Fin 7) (Fin 7) ℝ → Matrix (Fin 7) (Fin 7) ℝ)
    (s : State) (m : MeasurementPackage) :
    (specFullCycle llt s m).use_laser_ = s.use_laser_
      ∧ (specFullCycle llt s m).use_radar_ = s.use_radar_
      ∧ (specFullCycle llt s m).time_us_ = m.timestamp_ := by
  unfold specFullCycle
  cases m.sensor_type_ <;> exact ⟨rfl, rfl, rfl⟩

theorem specInitOnly_frame (s : State) (m : MeasurementPackage) :
    (specInitOnly s m).use_laser_ = s.use_laser_
      ∧ (specInitOnly s m).use_radar_ = s.use_radar_
      ∧ (specInitOnly s m).time_us_ = m.timestamp_ := by
  unfold specInitOnly
  cases m.sensor_type_ <;> exact ⟨rfl, rfl, rfl⟩

theorem ProcessMeasurement_disabled (llt : Matrix (Fin 7) (Fin 7) ℝ → Matrix (Fin 7) (Fin 7) ℝ)
    (s : State) (m : MeasurementPackage) (h : isSupported s m = false) :
    ProcessMeasurement llt s m = s := by
  simp [ProcessMeasurement, h]

theorem ProcessMeasurement_first (llt : Matrix (Fin 7) (Fin 7) ℝ → Matrix (Fin 7) (Fin 7) ℝ)
    (s : State) (m : MeasurementPackage) (h : isSupported s m = true) (ht : s.time_us_ < 0) :
    ProcessMeasurement llt s m = specInitOnly s m := by
  unfold ProcessMeasurement init specInitOnly
  cases hm : m.sensor_type_ <;> simp [h, ht]

theorem ProcessMeasurement_cycle (llt : Matrix (Fin 7) (Fin 7) ℝ → Matrix (Fin 7) (Fin 7) ℝ)
    (s : State) (m : MeasurementPackage) (h : isSupported s m = true) (ht : 0 ≤ s.time_us_) :
    ProcessMeasurement llt s m = specFullCycle llt s m := by
  have ht' : ¬ s.time_us_ < 0 := not_lt.mpr ht
  have e : (1000000.0 : ℝ) = 1000000 := by norm_num
  unfold ProcessMeasurement init specFullCycle
  cases hm : m.sensor_type_ <;> simp [h, ht', e]

/-! ## C1: measurements of a switched-off sensor -/

/-- C1: for every state of the filter, initialised or not, a LASER measurement with
`use_laser_ = false` or a RADAR measurement with `use_radar_ = false` makes
`ProcessMeasurement` return the object unchanged; in particular `x_`, `P_`,
`time_us_`, `NIS_laser_` and `NIS_radar_` are what they were. -/
theorem processMeasurement_disabled_unchanged
    (llt : Matrix (Fin 7) (Fin 7) ℝ → Matrix (Fin 7) (Fin 7) ℝ)
    (s : State) (m : MeasurementPackage)
    (h : (m.sensor_type_ = SensorType.LASER ∧ s.use_laser_ = false)
      ∨ (m.sensor_type_ = SensorType.RADAR ∧ s.use_radar_ = false)) :
    ProcessMeasurement llt s m = s
      ∧ (ProcessMeasurement llt s m).x_ = s.x_
      ∧ (ProcessMeasurement llt s m).P_ = s.P_
      ∧ (ProcessMeasurement llt s m).time_us_ = s.time_us_
      ∧ (ProcessMeasurement llt s m).NIS_laser_ = s.NIS_laser_
      ∧ (ProcessMeasurement llt s m).NIS_radar_ = s.NIS_radar_ := by
  have hs : isSupported s m = false := by
    unfold isSupported
    rcases h with ⟨h1, h2⟩ | ⟨h1, h2⟩ <;> simp [h1, h2]
  have e := ProcessMeasurement_disabled llt s m hs
  simp [e]

/-- Witness for C1: a laser measurement offered to a filter built with the laser off. -/
theorem processMeasurement_disabled_unchanged_witness :
    ((sampleLaser 7).sensor_type_ = SensorType.LASER
        ∧ (construct false true sampleStorage).use_laser_ = false)
      ∧ ProcessMeasurement sampleLlt (construct false true sampleStorage) (sampleLaser 7)
        = construct false true sampleStorage :=
  ⟨⟨rfl, rfl⟩,
    (processMeasurement_disabled_unchanged sampleLlt (construct false true sampleStorage)
      (sampleLaser 7) (Or.inl ⟨rfl, rfl⟩)).1⟩

/-! ## C3, C4: the first measurement -/

/-- C3: a first RADAR measurement `(rho, phi, rhodot)` with time stamp `t`, processed by a
filter that has radar enabled and is not yet initialised (clock below zero), sets the mean
to `(rho cos phi, rho sin phi, 4, rhodot cos phi, rhodot sin phi)`, the covariance to the
diagonal matrix with `std_radr_^2` in both position entries (then `1`, `std_radphi_`,
`std_radphi_`), and the clock to `t`; for `rho = 5`, `phi = 0`, `rhodot = 1` the position
is `(5, 0)`. -/
theorem processMeasurement_first_radar
    (llt : Matrix (Fin 7) (Fin 7) ℝ → Matrix (Fin 7) (Fin 7) ℝ)
    (s : State) (m : MeasurementPackage)
    (hr : s.use_radar_ = true) (hu : s.time_us_ < 0)
    (hm : m.sensor_type_ = SensorType.RADAR) :
    (ProcessMeasurement llt s m).x_
        = ![m.raw_measurements_ 0 * Real.cos (m.raw_measurements_ 1),
            m.raw_measurements_ 0 * Real.sin (m.raw_measurements_ 1),
            4,
            m.raw_measurements_ 2 * Real.cos (m.raw_measurements_ 1),
            m.raw_measurements_ 2 * Real.sin (m.raw_measurements_ 1)]
      ∧ (ProcessMeasurement llt s m).P_
        = Matrix.diagonal ![std_radr_ ^ 2, std_radr_ ^ 2, 1, std_radphi_, std_radphi_]
      ∧ (ProcessMeasurement llt s m).time_us_ = m.timestamp_
      ∧ (m.raw_measurements_ = ![5, 0, 1] →
          (ProcessMeasurement llt s m).x_ 0 = 5 ∧ (ProcessMeasurement llt s m).x_ 1 = 0) := by
  have hs : isSupported s m = true := by simp [isSupported, hm, hr]
  have e : specInitOnly s m = { radarInit s m with time_us_ := m.timestamp_ } := by
    simp [specInitOnly, hm]
  rw [ProcessMeasurement_first llt s m hs hu, e]
  refine ⟨rfl, ?_, rfl, ?_⟩
  · ext i j
    fin_cases i <;> fin_cases j <;>
      simp [radarInit, Matrix.diagonal, pow_two, Matrix.vecHead, Matrix.vecTail]
  · intro e5
    simp [radarInit, e5]

/-- Witness for C3: the radar reading `rho = 5`, `phi = 0`, `rhodot = 1` at time `10`
given to a freshly constructed filter puts the position at `(5, 0)`. -/
theorem processMeasurement_first_radar_witness :
    ((construct true true sampleStorage).use_radar_ = true
        ∧ (construct true true sampleStorage).time_us_ < 0
        ∧ (sampleRadar 10).sensor_type_ = SensorType.RADAR)
      ∧ (ProcessMeasurement sampleLlt (construct true true sampleStorage) (sampleRadar 10)).x_ 0
          = 5
      ∧ (ProcessMeasurement sampleLlt (construct true true sampleStorage) (sampleRadar 10)).x_ 1
          = 0 :=
  ⟨⟨rfl, by simp [construct], rfl⟩,
    (processMeasurement_first_radar sampleLlt (construct true true sampleStorage)
      (sampleRadar 10) rfl (by simp [construct]) rfl).2.2.2 rfl⟩

/-- C4: a first LASER measurement `(px, py)` with time stamp `t`, processed by a filter
that has the laser enabled and is not yet initialised (clock below zero), sets the mean to
`(px, py, 4, 0.5, 0)`, the covariance to `diag(std_laspx_^2, std_laspy_^2, 1, 1, 1)` and
the clock to `t`; for `(3, 4)` the position is `(3, 4)`. -/
theorem processMeasurement_first_laser
    (llt : Matrix (Fin 7) (Fin 7) ℝ → Matrix (Fin 7) (Fin 7) ℝ)
    (s : State) (m : MeasurementPackage)
    (hl : s.use_laser_ = true) (hu : s.time_us_ < 0)
    (hm : m.sensor_type_ = SensorType.LASER) :
    (ProcessMeasurement llt s m).x_
        = ![m.raw_measurements_ 0, m.raw_measurements_ 1, 4, 0.5, 0]
      ∧ (ProcessMeasurement llt s m).P_
        = Matrix.diagonal ![std_laspx_ ^ 2, std_laspy_ ^ 2, 1, 1, 1]
      ∧ (ProcessMeasurement llt s m).time_us_ = m.timestamp_
      ∧ (m.raw_measurements_ 0 = 3 → m.raw_measurements_ 1 = 4 →
          (ProcessMeasurement llt s m).x_ 0 = 3 ∧ (ProcessMeasurement llt s m).x_ 1 = 4) := by
  have hs : isSupported s m = true := by simp [isSupported, hm, hl]
  have e : specInitOnly s m = { lidarInit s m with time_us_ := m.timestamp_ } := by
    simp [specInitOnly, hm]
  rw [ProcessMeasurement_first llt s m hs hu, e]
  refine ⟨?_, ?_, rfl, ?_⟩
  · ext i
    fin_cases i <;> norm_num [lidarInit]
  · ext i j
    fin_cases i <;> fin_cases j <;>
      simp [lidarInit, Matrix.diagonal, pow_two, Matrix.vecHead, Matrix.vecTail]
  · intro e0 e1
    simp [lidarInit, e0, e1]

/-- Witness for C4: the laser reading `(3, 4)` at time `10` given to a freshly
constructed filter puts the position at `(3, 4)`. -/
theorem processMeasurement_first_laser_witness :
    ((construct true true sampleStorage).use_laser_ = true
        ∧ (construct true true sampleStorage).time_us_ < 0
        ∧ (sampleLaser 10).sensor_type_ = SensorType.LASER)
      ∧ (ProcessMeasurement sampleLlt (construct true true sampleStorage) (sampleLaser 10)).x_ 0
          = 3
      ∧ (ProcessMeasurement sampleLlt (construct true true sampleStorage) (sampleLaser 10)).x_ 1
          = 4 :=
  ⟨⟨rfl, by simp [construct], rfl⟩,
    (processMeasurement_first_laser sampleLlt (construct true true sampleStorage)
      (sampleLaser 10) rfl (by simp [construct]) rfl).2.2.2 rfl rfl⟩

/-! ## C6: the sigma-point weights -/

theorem Prediction_weights (llt : Matrix (Fin 7) (Fin 7) ℝ → Matrix (Fin 7) (Fin 7) ℝ)
    (s : State) :
    (Prediction llt s).weights_
      = fun i => if i.val = 0 then lambda_ / (lambda_ + n_aug_)
          else 0.5 / (lambda_ + n_aug_) := by
  unfold Prediction
  simp only [weightsAndMean_eq]

theorem Prediction_weights_values
    (llt : Matrix (Fin 7) (Fin 7) ℝ → Matrix (Fin 7) (Fin 7) ℝ) (s : State) (i : Fin 15) :
    (Prediction llt s).weights_ i = if i = 0 then -2 / 5 else 1 / 10 := by
  rw [Prediction_weights]
  by_cases h : i = 0
  · subst h
    norm_num [lambda_]
  · have h' : i.val ≠ 0 := fun e => h (Fin.ext e)
    simp only [h', h, if_false]
    norm_num [lambda_]

/-- C6: the fifteen weights that `Prediction` writes are `lambda/(lambda+L)` at index 0 and
`1/(2(lambda+L))` at the indices 1 to 14, where `lambda = 3 - 5 = -2` and `L = 7`, that is
`-2/5` and `1/10`; their sum is exactly 1; and they are the same for every prior state,
elapsed time and square root (no measurement enters `Prediction`). -/
theorem prediction_weights_sum_one
    (llt : Matrix (Fin 7) (Fin 7) ℝ → Matrix (Fin 7) (Fin 7) ℝ) (s : State) :
    (Prediction llt s).weights_ 0 = lambda_ / (lambda_ + n_aug_)
      ∧ (∀ i : Fin 15, i ≠ 0 → (Prediction llt s).weights_ i = 1 / (2 * (lambda_ + n_aug_)))
      ∧ lambda_ = 3 - 5 ∧ lambda_ = -2 ∧ n_aug_ = 7
      ∧ (Prediction llt s).weights_ 0 = -2 / 5
      ∧ (∀ i : Fin 15, i ≠ 0 → (Prediction llt s).weights_ i = 1 / 10)
      ∧ ∑ i : Fin 15, (Prediction llt s).weights_ i = 1
      ∧ (∀ (llt' : Matrix (Fin 7) (Fin 7) ℝ → Matrix (Fin 7) (Fin 7) ℝ) (s' : State),
          (Prediction llt' s').weights_ = (Prediction llt s).weights_) := by
  have hl : lambda_ = -2 := by norm_num [lambda_]
  refine ⟨?_, ?_, ?_, hl, rfl, ?_, ?_, ?_, ?_⟩
  · rw [Prediction_weights_values]; norm_num [hl]
  · intro i hi
    rw [Prediction_weights_values]; norm_num [hl, hi]
  · norm_num [hl]
  · rw [Prediction_weights_values]; norm_num
  · intro i hi
    rw [Prediction_weights_values]; norm_num [hi]
  · simp only [Prediction_weights_values]
    rw [Fin.sum_univ_succ]
    simp [Fin.succ_ne_zero]
    norm_num
  · intro llt' s'
    rw [Prediction_weights, Prediction_weights]

/-! ## C2: initialisation first, full cycles afterwards -/

theorem processAll_cycles (llt : Matrix (Fin 7) (Fin 7) ℝ → Matrix (Fin 7) (Fin 7) ℝ)
    (ms : List MeasurementPackage) (s : State)
    (hen : ∀ x ∈ ms, isSupported s x = true) (ht : 0 ≤ s.time_us_)
    (hnn : ∀ x ∈ ms, 0 ≤ x.timestamp_) :
    processAll llt s ms = ms.foldl (specFullCycle llt) s := by
  induction ms generalizing s with
  | nil => rfl
  | cons m ms ih =>
    have h1 : ProcessMeasurement llt s m = specFullCycle llt s m :=
      ProcessMeasurement_cycle llt s m (hen m (List.mem_cons_self _ _)) ht
    have hf := specFullCycle_frame llt s m
    unfold processAll at ih ⊢
    rw [List.foldl_cons, List.foldl_cons, h1]
    apply ih
    · intro x hx
      rw [isSupported_congr _ s x hf.1 hf.2.1]
      exact hen x (List.mem_cons_of_mem _ hx)
    · rw [hf.2.2]
      exact hnn m (List.mem_cons_self _ _)
    · intro x hx
      exact hnn x (List.mem_cons_of_mem _ hx)

/-- C2 (amended): for a freshly constructed filter and a sequence of enabled measurements
with non-decreasing integer time stamps of which the first is not negative, the first
measurement triggers only initialisation (the result is the seeded state; both NIS values,
the sigma points and the weights are untouched, so no `Prediction` and no update ran), and
every later measurement triggers the full cycle, `Prediction` followed by the update of its
sensor type. -/
theorem processAll_fresh_init_then_cycles
    (llt : Matrix (Fin 7) (Fin 7) ℝ → Matrix (Fin 7) (Fin 7) ℝ)
    (use_laser use_radar : Bool) (storage : State)
    (m : MeasurementPackage) (ms : List MeasurementPackage)
    (hen : ∀ x ∈ m :: ms, isSupported (construct use_laser use_radar storage) x = true)
    (hmono : (m :: ms).Pairwise (fun a b => a.timestamp_ ≤ b.timestamp_))
    (h0 : 0 ≤ m.timestamp_) :
    ProcessMeasurement llt (construct use_laser use_radar storage) m
        = specInitOnly (construct use_laser use_radar storage) m
      ∧ (init (construct use_laser use_radar storage) m).1 = false
      ∧ (ProcessMeasurement llt (construct use_laser use_radar storage) m).NIS_laser_ = 0
      ∧ (ProcessMeasurement llt (construct use_laser use_radar storage) m).NIS_radar_ = 0
      ∧ (ProcessMeasurement llt (construct use_laser use_radar storage) m).Xsig_pred_
          = storage.Xsig_pred_
      ∧ (ProcessMeasurement llt (construct use_laser use_radar storage) m).weights_
          = storage.weights_
      ∧ processAll llt (construct use_laser use_radar storage) (m :: ms)
          = ms.foldl (specFullCycle llt)
              (specInitOnly (construct use_laser use_radar storage) m) := by
  have hneg : (construct use_laser use_radar storage).time_us_ < 0 := by simp [construct]
  have h1 := ProcessMeasurement_first llt (construct use_laser use_radar storage) m
    (hen m (List.mem_cons_self _ _)) hneg
  have hf := specInitOnly_frame (construct use_laser use_radar storage) m
  have hall : ∀ x ∈ ms, m.timestamp_ ≤ x.timestamp_ := (List.pairwise_cons.mp hmono).1
  refine ⟨h1, ?_, ?_, ?_, ?_, ?_, ?_⟩
  · unfold init
    cases m.sensor_type_ <;> simp [hneg]
  · rw [h1]; unfold specInitOnly
    cases m.sensor_type_ <;> rfl
  · rw [h1]; unfold specInitOnly
    cases m.sensor_type_ <;> rfl
  · rw [h1]; unfold specInitOnly
    cases m.sensor_type_ <;> rfl
  · rw [h1]; unfold specInitOnly
    cases m.sensor_type_ <;> rfl
  · show processAll llt (ProcessMeasurement llt (construct use_laser use_radar storage) m) ms
      = _
    rw [h1]
    apply processAll_cycles
    · intro x hx
      rw [isSupported_congr _ (construct use_laser use_radar storage) x hf.1 hf.2.1]
      exact hen x (List.mem_cons_of_mem _ hx)
    · rw [hf.2.2]; exact h0
    · intro x hx
      exact le_trans h0 (hall x hx)

/-- Witness for C2 (amended): a laser reading at time 0 and a radar reading at time
1000000 given to a freshly constructed filter with both sensors on. -/
theorem processAll_fresh_init_then_cycles_witness :
    ((∀ x ∈ [sampleLaser 0, sampleRadar 1000000],
          isSupported (construct true true sampleStorage) x = true)
        ∧ [sampleLaser 0, sampleRadar 1000000].Pairwise
            (fun a b => a.timestamp_ ≤ b.timestamp_)
        ∧ 0 ≤ (sampleLaser 0).timestamp_)
      ∧ processAll sampleLlt (construct true true sampleStorage)
          [sampleLaser 0, sampleRadar 1000000]
        = specFullCycle sampleLlt
            (specInitOnly (construct true true sampleStorage) (sampleLaser 0))
            (sampleRadar 1000000) :=
  ⟨⟨by simp [isSupported, construct, sampleLaser, sampleRadar],
      by simp [sampleLaser, sampleRadar], by simp [sampleLaser]⟩,
    (processAll_fresh_init_then_cycles sampleLlt true true sampleStorage (sampleLaser 0)
      [sampleRadar 1000000]
      (by simp [isSupported, construct, sampleLaser, sampleRadar])
      (by simp [sampleLaser, sampleRadar]) (by simp [sampleLaser])).2.2.2.2.2.2⟩

theorem specFullCycle_weights (llt : Matrix (Fin 7) (Fin 7) ℝ → Matrix (Fin 7) (Fin 7) ℝ)
    (s : State) (m : MeasurementPackage) (i : Fin 15) :
    (specFullCycle llt s m).weights_ i = if i = 0 then -2 / 5 else 1 / 10 := by
  unfold specFullCycle
  cases m.sensor_type_
  · show (UpdateLidar _ m).weights_ i = _
    rw [(UpdateLidar_frame _ m).2.2.2, Prediction_weights_values]
  · show (UpdateRadar _ m).weights_ i = _
    rw [(UpdateRadar_frame _ m).2.2.2, Prediction_weights_values]

/-- Counterexample to C2 as stated: two enabled laser readings with the non-decreasing
time stamps `-2` and `-1` given to a freshly constructed filter.  The clock stays below
zero after the first, so the second call initialises again instead of running
`Prediction` and `UpdateLidar`: the result is the re-seeded state, and it differs from the
full cycle (its weight 0 is still the stored `0`, not `-2/5`). -/
theorem processAll_negative_timestamps_reinit :
    (∀ x ∈ [sampleLaser (-2), sampleLaser (-1)],
        isSupported (construct true true sampleStorage) x = true)
      ∧ [sampleLaser (-2), sampleLaser (-1)].Pairwise (fun a b => a.timestamp_ ≤ b.timestamp_)
      ∧ processAll sampleLlt (construct true true sampleStorage)
          [sampleLaser (-2), sampleLaser (-1)]
        = specInitOnly (specInitOnly (construct true true sampleStorage) (sampleLaser (-2)))
            (sampleLaser (-1))
      ∧ processAll sampleLlt (construct true true sampleStorage)
          [sampleLaser (-2), sampleLaser (-1)]
        ≠ specFullCycle sampleLlt
            (specInitOnly (construct true true sampleStorage) (sampleLaser (-2)))
            (sampleLaser (-1)) := by
  have e : processAll sampleLlt (construct true true sampleStorage)
      [sampleLaser (-2), sampleLaser (-1)]
        = specInitOnly (specInitOnly (construct true true sampleStorage) (sampleLaser (-2)))
            (sampleLaser (-1)) := by
    show ProcessMeasurement sampleLlt
      (ProcessMeasurement sampleLlt (construct true true sampleStorage) (sampleLaser (-2)))
      (sampleLaser (-1)) = _
    rw [ProcessMeasurement_first sampleLlt (construct true true sampleStorage)
      (sampleLaser (-2)) rfl (by simp [construct])]
    exact ProcessMeasurement_first sampleLlt _ (sampleLaser (-1)) rfl
      (by simp [specInitOnly, sampleLaser])
  refine ⟨by simp [isSupported, construct, sampleLaser],
    by simp [sampleLaser], e, ?_⟩
  rw [e]
  intro h
  have hw := congrArg (fun t => t.weights_ 0) h
  simp only [specFullCycle_weights] at hw
  simp only [specInitOnly, sampleLaser, lidarInit, construct, sampleStorage] at hw
  norm_num at hw

/-! ## C5: the angle normaliser -/

theorem normalizeAngles_entry {n : ℕ} (i : ℕ) (h : i < n) (vect : Fin n → ℝ) :
    normalizeAngles i vect ⟨i, h⟩
      = if vect ⟨i, h⟩ > Real.pi then vect ⟨i, h⟩ - 2 * Real.pi
        else if vect ⟨i, h⟩ < -Real.pi then vect ⟨i, h⟩ + 2 * Real.pi
        else vect ⟨i, h⟩ := by
  unfold normalizeAngles
  rw [dif_pos h]
  split_ifs <;> simp

theorem normalizeAngles_other {n : ℕ} (i : ℕ) (vect : Fin n → ℝ) (j : Fin n)
    (hj : j.val ≠ i) : normalizeAngles i vect j = vect j := by
  unfold normalizeAngles
  have hne : ∀ h : i < n, j ≠ ⟨i, h⟩ := fun h e => hj (by rw [e])
  split_ifs with h h1 h2
  · exact Function.update_noteq (hne h) _ _
  · exact Function.update_noteq (hne h) _ _
  · rfl
  · rfl

/-- C5 (amended): `normalizeAngles` shifts entry `i` once, by `2 pi` at most: the result is
`r - 2 pi` when the input `r` is above `pi`, `r + 2 pi` when `r` is below `-pi`, and `r`
itself otherwise, so it is `r`, `r - 2 pi` or `r + 2 pi` and congruent to `r` modulo
`2 pi`; and it lies in the half-open interval `(-pi, pi]` exactly when
`-3 pi < r <= 3 pi` and `r` is not `-pi`. -/
theorem normalizeAngles_range_iff {n : ℕ} (i : ℕ) (h : i < n) (vect : Fin n → ℝ) :
    (normalizeAngles i vect ⟨i, h⟩ = vect ⟨i, h⟩
        ∨ normalizeAngles i vect ⟨i, h⟩ = vect ⟨i, h⟩ - 2 * Real.pi
        ∨ normalizeAngles i vect ⟨i, h⟩ = vect ⟨i, h⟩ + 2 * Real.pi)
      ∧ (Real.pi < vect ⟨i, h⟩ →
          normalizeAngles i vect ⟨i, h⟩ = vect ⟨i, h⟩ - 2 * Real.pi)
      ∧ (vect ⟨i, h⟩ < -Real.pi →
          normalizeAngles i vect ⟨i, h⟩ = vect ⟨i, h⟩ + 2 * Real.pi)
      ∧ (-Real.pi ≤ vect ⟨i, h⟩ → vect ⟨i, h⟩ ≤ Real.pi →
          normalizeAngles i vect ⟨i, h⟩ = vect ⟨i, h⟩)
      ∧ (∃ k : ℤ, normalizeAngles i vect ⟨i, h⟩ = vect ⟨i, h⟩ + k * (2 * Real.pi))
      ∧ (normalizeAngles i vect ⟨i, h⟩ ∈ Set.Ioc (-Real.pi) Real.pi
          ↔ (-(3 * Real.pi) < vect ⟨i, h⟩ ∧ vect ⟨i, h⟩ ≤ 3 * Real.pi
              ∧ vect ⟨i, h⟩ ≠ -Real.pi)) := by
  have hpi := Real.pi_pos
  rw [normalizeAngles_entry i h vect]
  refine ⟨?_, ?_, ?_, ?_, ?_, ?_⟩
  · split_ifs
    · exact Or.inr (Or.inl rfl)
    · exact Or.inr (Or.inr rfl)
    · exact Or.inl rfl
  · intro hgt
    rw [if_pos hgt]
  · intro hlt
    rw [if_neg (by linarith), if_pos hlt]
  · intro hlo hhi
    rw [if_neg (by linarith), if_neg (by linarith)]
  · split_ifs
    · exact ⟨-1, by push_cast; ring⟩
    · exact ⟨1, by push_cast; ring⟩
    · exact ⟨0, by push_cast; ring⟩
  · simp only [Set.mem_Ioc]
    split_ifs with h1 h2
    · constructor
      · rintro ⟨a, b⟩
        exact ⟨by linarith, by linarith, by intro e; linarith⟩
      · rintro ⟨a, b, c⟩
        exact ⟨by linarith, by linarith⟩
    · constructor
      · rintro ⟨a, b⟩
        exact ⟨by linarith, by linarith, by intro e; linarith⟩
      · rintro ⟨a, b, c⟩
        exact ⟨by linarith, by linarith⟩
    · constructor
      · rintro ⟨a, b⟩
        exact ⟨by linarith, by linarith, by intro e; linarith⟩
      · rintro ⟨a, b, c⟩
        push_neg at h1 h2
        exact ⟨lt_of_le_of_ne h2 (Ne.symm c), h1⟩

/-- Witness for C5 (amended): the heading residual `4` at index 3 of a state residual lies
between `-3 pi` and `3 pi`, so its normalised value lies in `(-pi, pi]`. -/
theorem normalizeAngles_range_iff_witness :
    3 < 5 ∧ normalizeAngles 3 (![0, 0, 0, 4, 0] : Fin 5 → ℝ) ⟨3, by norm_num⟩
      ∈ Set.Ioc (-Real.pi) Real.pi :=
  ⟨by norm_num,
    (normalizeAngles_range_iff 3 (by norm_num)
      (![0, 0, 0, 4, 0] : Fin 5 → ℝ)).2.2.2.2.2.mpr
      (by
        have h3 := Real.pi_gt_three
        have hv : (![0, 0, 0, 4, 0] : Fin 5 → ℝ) ⟨3, by norm_num⟩ = 4 := rfl
        rw [hv]
        exact ⟨by linarith, by linarith, by intro e; linarith⟩)⟩

/-- Counterexample to C5 as stated: the residual `5 pi` at index 3 is shifted once, to
`3 pi`, which is above `pi`; and the residual `-pi` is left at `-pi`, which is not inside
the half-open interval `(-pi, pi]`. -/
theorem normalizeAngles_outside_interval :
    normalizeAngles 3 (![0, 0, 0, 5 * Real.pi, 0] : Fin 5 → ℝ) 3 = 3 * Real.pi
      ∧ normalizeAngles 3 (![0, 0, 0, 5 * Real.pi, 0] : Fin 5 → ℝ) 3
          ∉ Set.Ioc (-Real.pi) Real.pi
      ∧ normalizeAngles 3 (![0, 0, 0, -Real.pi, 0] : Fin 5 → ℝ) 3 = -Real.pi
      ∧ normalizeAngles 3 (![0, 0, 0, -Real.pi, 0] : Fin 5 → ℝ) 3
          ∉ Set.Ioc (-Real.pi) Real.pi := by
  have hpi := Real.pi_pos
  have e1 : normalizeAngles 3 (![0, 0, 0, 5 * Real.pi, 0] : Fin 5 → ℝ) 3 = 3 * Real.pi := by
    have h := normalizeAngles_entry 3 (by norm_num) (![0, 0, 0, 5 * Real.pi, 0] : Fin 5 → ℝ)
    have hv : (![0, 0, 0, 5 * Real.pi, 0] : Fin 5 → ℝ) ⟨3, by norm_num⟩ = 5 * Real.pi := rfl
    rw [hv] at h
    rw [if_pos (by linarith)] at h
    rw [show (3 : Fin 5) = ⟨3, by norm_num⟩ from rfl, h]
    ring
  have e2 : normalizeAngles 3 (![0, 0, 0, -Real.pi, 0] : Fin 5 → ℝ) 3 = -Real.pi := by
    have h := normalizeAngles_entry 3 (by norm_num) (![0, 0, 0, -Real.pi, 0] : Fin 5 → ℝ)
    have hv : (![0, 0, 0, -Real.pi, 0] : Fin 5 → ℝ) ⟨3, by norm_num⟩ = -Real.pi := rfl
    rw [hv] at h
    rw [if_neg (by linarith), if_neg (by linarith)] at h
    rw [show (3 : Fin 5) = ⟨3, by norm_num⟩ from rfl, h]
  refine ⟨e1, ?_, e2, ?_⟩
  · rw [e1, Set.mem_Ioc]
    intro hh
    linarith [hh.2]
  · rw [e2, Set.mem_Ioc]
    intro hh
    linarith [hh.1]

/-! ## C7: symmetry of the augmented sigma points -/

theorem sigmaLoop_column_zero (p q : Fin 7 → Fin 7 → ℝ) (x : Fin 7 → ℝ) (l : List (Fin 7))
    (X0 : Matrix (Fin 7) (Fin 15) ℝ) (h0 : column X0 0 = x) :
    column (l.foldl (fun X (i : Fin 7) =>
        (X.updateColumn ⟨i.val + 1, by omega⟩ (p i)).updateColumn
          ⟨i.val + 1 + n_aug_, by show i.val + 1 + 7 < 15; omega⟩ (q i)) X0) 0 = x := by
  induction l generalizing X0 with
  | nil => exact h0
  | cons a l ih =>
    rw [List.foldl_cons]
    apply ih
    funext r
    have hn : n_aug_ = 7 := rfl
    have h1 : (0 : Fin 15) ≠ ⟨a.val + 1 + n_aug_, by show a.val + 1 + 7 < 15; omega⟩ := by
      intro e; have := congrArg Fin.val e; simp at this; omega
    have h2 : (0 : Fin 15) ≠ ⟨a.val + 1, by omega⟩ := by
      intro e; have := congrArg Fin.val e; simp at this
    have := congrFun h0 r
    simp only [column] at this ⊢
    rw [updateColumn_ne h1, updateColumn_ne h2, this]

theorem sigmaLoop_column_pair (p q : Fin 7 → Fin 7 → ℝ) (k : Fin 7) (l : List (Fin 7))
    (X0 : Matrix (Fin 7) (Fin 15) ℝ)
    (h : k ∈ l ∨ (column X0 ⟨k.val + 1, by omega⟩ = p k
      ∧ column X0 ⟨k.val + 1 + 7, by omega⟩ = q k)) :
    column (l.foldl (fun X (i : Fin 7) =>
        (X.updateColumn ⟨i.val + 1, by omega⟩ (p i)).updateColumn
          ⟨i.val + 1 + n_aug_, by show i.val + 1 + 7 < 15; omega⟩ (q i)) X0)
        ⟨k.val + 1, by omega⟩ = p k
      ∧ column (l.foldl (fun X (i : Fin 7) =>
        (X.updateColumn ⟨i.val + 1, by omega⟩ (p i)).updateColumn
          ⟨i.val + 1 + n_aug_, by show i.val + 1 + 7 < 15; omega⟩ (q i)) X0)
        ⟨k.val + 1 + 7, by omega⟩ = q k := by
  induction l generalizing X0 with
  | nil =>
    rcases h with h | h
    · simp at h
    · exact h
  | cons a l ih =>
    rw [List.foldl_cons]
    apply ih
    have hn : n_aug_ = 7 := rfl
    by_cases hkl : k ∈ l
    · exact Or.inl hkl
    · right
      have hlo : (⟨k.val + 1, by omega⟩ : Fin 15)
          ≠ ⟨a.val + 1 + n_aug_, by show a.val + 1 + 7 < 15; omega⟩ := by
        intro e; have := congrArg Fin.val e; simp at this; omega
      by_cases hka : k = a
      · subst hka
        constructor
        · funext r
          simp only [column]
          rw [updateColumn_ne hlo, updateColumn_self]
        · funext r
          simp only [column]
          exact updateColumn_self
      · have hin : ¬ k ∈ a :: l := by
          simp [hka, hkl]
        rcases h with h | h
        · exact absurd h hin
        · have hv : k.val ≠ a.val := fun e => hka (Fin.ext e)
          have h1 : (⟨k.val + 1, by omega⟩ : Fin 15) ≠ ⟨a.val + 1, by omega⟩ := by
            intro e; have := congrArg Fin.val e; simp at this; exact hv this
          have h2 : (⟨k.val + 1 + 7, by omega⟩ : Fin 15)
              ≠ ⟨a.val + 1 + n_aug_, by show a.val + 1 + 7 < 15; omega⟩ := by
            intro e; have := congrArg Fin.val e; simp at this; omega
          have h3 : (⟨k.val + 1 + 7, by omega⟩ : Fin 15) ≠ ⟨a.val + 1, by omega⟩ := by
            intro e; have := congrArg Fin.val e; simp at this; omega
          constructor
          · funext r
            have := congrFun h.1 r
            simp only [column] at this ⊢
            rw [updateColumn_ne hlo, updateColumn_ne h1, this]
          · funext r
            have := congrFun h.2 r
            simp only [column] at this ⊢
            rw [updateColumn_ne h2, updateColumn_ne h3, this]

theorem sigmaPoints_columns (x_aug : Fin 7 → ℝ) (A_aug : Matrix (Fin 7) (Fin 7) ℝ)
    (k : Fin 7) :
    column (Xsig_aug_ x_aug A_aug) 0 = x_aug
      ∧ column (Xsig_aug_ x_aug A_aug) ⟨k.val + 1, by omega⟩
          = x_aug + Real.sqrt (lambda_ + n_aug_) • column A_aug k
      ∧ column (Xsig_aug_ x_aug A_aug) ⟨k.val + 1 + 7, by omega⟩
          = x_aug - Real.sqrt (lambda_ + n_aug_) • column A_aug k := by
  unfold Xsig_aug_ forLoop
  refine ⟨?_, ?_⟩
  · exact sigmaLoop_column_zero
      (fun i => x_aug + Real.sqrt (lambda_ + n_aug_) • column A_aug i)
      (fun i => x_aug - Real.sqrt (lambda_ + n_aug_) • column A_aug i) x_aug (List.finRange 7)
      ((0 : Matrix (Fin 7) (Fin 15) ℝ).updateColumn 0 x_aug)
      (column_updateColumn_same _ _ _)
  · exact sigmaLoop_column_pair
      (fun i => x_aug + Real.sqrt (lambda_ + n_aug_) • column A_aug i)
      (fun i => x_aug - Real.sqrt (lambda_ + n_aug_) • column A_aug i) k (List.finRange 7)
      ((0 : Matrix (Fin 7) (Fin 15) ℝ).updateColumn 0 x_aug)
      (Or.inl (List.mem_finRange k))

/-- C7: for every mean, covariance and square root that `Prediction` uses, the augmented
sigma points satisfy `column(k) + column(k+7) = 2 column(0)` for `k = 1, ..., 7`, and
column 0 is the augmented mean: the state mean followed by two zeros. -/
theorem sigmaPoints_reflect_about_mean
    (llt : Matrix (Fin 7) (Fin 7) ℝ → Matrix (Fin 7) (Fin 7) ℝ) (s : State) :
    (∀ (k : ℕ) (h1 : 1 ≤ k) (h7 : k ≤ 7),
        column (Xsig_aug_ (x_aug_ s) (llt (P_aug_ s)))
            ⟨k, by omega⟩
          + column (Xsig_aug_ (x_aug_ s) (llt (P_aug_ s)))
            ⟨k + 7, by omega⟩
          = (2 : ℝ) • column
              (Xsig_aug_ (x_aug_ s) (llt (P_aug_ s))) 0)
      ∧ column (Xsig_aug_ (x_aug_ s) (llt (P_aug_ s))) 0
          = x_aug_ s
      ∧ (∀ i : Fin 5, x_aug_ s (Fin.castLE (by norm_num) i) = s.x_ i)
      ∧ x_aug_ s 5 = 0 ∧ x_aug_ s 6 = 0 := by
  refine ⟨?_, ?_, ?_, ?_, ?_⟩
  · intro k h1 h7
    obtain ⟨j, rfl⟩ : ∃ j, k = j + 1 := ⟨k - 1, by omega⟩
    have h := sigmaPoints_columns (x_aug_ s) (llt (P_aug_ s))
      ⟨j, by omega⟩
    rw [h.1]
    have e1 := h.2.1
    have e2 := h.2.2
    simp only at e1 e2
    rw [e1, e2]
    funext r
    simp only [Pi.add_apply, Pi.sub_apply, Pi.smul_apply, smul_eq_mul]
    ring
  · exact (sigmaPoints_columns _ _ 0).1
  · intro i
    simp [x_aug_]
  · unfold x_aug_
    exact dif_neg (by decide)
  · unfold x_aug_
    exact dif_neg (by decide)

/-! ## The pieces of the updates in closed form -/

theorem lidarPrediction_eq (s : State) :
    lidarPrediction s
      = (fun r c => (![s.Xsig_pred_ 0 c, s.Xsig_pred_ 1 c] : Fin 2 → ℝ) r,
         ∑ i : Fin 15, s.weights_ i • (![s.Xsig_pred_ 0 i, s.Xsig_pred_ 1 i] : Fin 2 → ℝ)) := by
  unfold lidarPrediction
  simp only [column_updateColumn_same]
  rw [forLoop_pair 15
    (fun i (Z : Matrix (Fin 2) (Fin 15) ℝ) =>
      Z.updateColumn i ![column s.Xsig_pred_ i 0, column s.Xsig_pred_ i 1])
    (fun i => s.weights_ i • (![column s.Xsig_pred_ i 0, column s.Xsig_pred_ i 1] : Fin 2 → ℝ))]
  rw [forLoop_updateColumn, zero_add]
  rfl

theorem calculateMeasurementCovarianceMatrix_eq {size : ℕ} (s : State)
    (sig : Matrix (Fin size) (Fin 15) ℝ) (pred : Fin size → ℝ)
    (R : Matrix (Fin size) (Fin size) ℝ) (normalize : Bool) :
    calculateMeasurementCovarianceMatrix s sig pred R normalize
      = ∑ i : Fin 15,
          vecMulVec
            (s.weights_ i • (if normalize then normalizeAngles 1 (column sig i - pred)
              else column sig i - pred))
            (if normalize then normalizeAngles 1 (column sig i - pred)
              else column sig i - pred)
        + R := by
  unfold calculateMeasurementCovarianceMatrix
  rw [forLoop_add 15 (fun i => vecMulVec
    (s.weights_ i • (if normalize then normalizeAngles 1 (column sig i - pred)
      else column sig i - pred))
    (if normalize then normalizeAngles 1 (column sig i - pred)
      else column sig i - pred)), zero_add]

theorem calculateCrossCorrelationMatrix_eq {size : ℕ} (s : State)
    (Zsig : Matrix (Fin size) (Fin 15) ℝ) (z_pred : Fin size → ℝ) (normalize : Bool) :
    calculateCrossCorrelationMatrix s Zsig z_pred normalize
      = ∑ i : Fin 15,
          vecMulVec (s.weights_ i • normalizeAngles 3 (column s.Xsig_pred_ i - s.x_))
            (if normalize then normalizeAngles 1 (column Zsig i - z_pred)
              else column Zsig i - z_pred) := by
  unfold calculateCrossCorrelationMatrix
  rw [forLoop_add 15 (fun i =>
    vecMulVec (s.weights_ i • normalizeAngles 3 (column s.Xsig_pred_ i - s.x_))
      (if normalize then normalizeAngles 1 (column Zsig i - z_pred)
        else column Zsig i - z_pred)), zero_add]

/-! ## Symmetry of the covariance -/

theorem vecMulVec_smul_self_transpose {n : ℕ} (w : ℝ) (d : Fin n → ℝ) :
    (vecMulVec (w • d) d)ᵀ = vecMulVec (w • d) d := by
  ext a b
  simp only [transpose_apply, vecMulVec_apply, Pi.smul_apply, smul_eq_mul]
  ring

theorem sum_vecMulVec_transpose {n : ℕ} (w : Fin 15 → ℝ) (d : Fin 15 → Fin n → ℝ) :
    (∑ i : Fin 15, vecMulVec (w i • d i) (d i))ᵀ = ∑ i : Fin 15, vecMulVec (w i • d i) (d i) := by
  rw [transpose_sum]
  exact Finset.sum_congr rfl (fun i _ => vecMulVec_smul_self_transpose (w i) (d i))

theorem Prediction_P_symm (llt : Matrix (Fin 7) (Fin 7) ℝ → Matrix (Fin 7) (Fin 7) ℝ)
    (s : State) : ((Prediction llt s).P_)ᵀ = (Prediction llt s).P_ := by
  show (predictedCovariance _ _ _)ᵀ = predictedCovariance _ _ _
  rw [predictedCovariance_eq]
  exact sum_vecMulVec_transpose _ _

theorem calculateMeasurementCovarianceMatrix_symm {size : ℕ} (s : State)
    (sig : Matrix (Fin size) (Fin 15) ℝ) (pred : Fin size → ℝ)
    (R : Matrix (Fin size) (Fin size) ℝ) (normalize : Bool) (hR : Rᵀ = R) :
    (calculateMeasurementCovarianceMatrix s sig pred R normalize)ᵀ
      = calculateMeasurementCovarianceMatrix s sig pred R normalize := by
  rw [calculateMeasurementCovarianceMatrix_eq, transpose_add, hR, sum_vecMulVec_transpose]

theorem updateState_P_symm {size : ℕ} (s : State) (Tc : Matrix (Fin 5) (Fin size) ℝ)
    (S : Matrix (Fin size) (Fin size) ℝ) (z z_pred : Fin size → ℝ) (normalize : Bool)
    (hP : (s.P_)ᵀ = s.P_) (hS : Sᵀ = S) :
    ((updateState s Tc S z z_pred normalize).2.P_)ᵀ
      = (updateState s Tc S z z_pred normalize).2.P_ := by
  show (s.P_ - Tc * S⁻¹ * S * (Tc * S⁻¹)ᵀ)ᵀ = s.P_ - Tc * S⁻¹ * S * (Tc * S⁻¹)ᵀ
  generalize Tc * S⁻¹ = K
  rw [transpose_sub, hP, transpose_mul, transpose_mul, transpose_transpose, hS,
    Matrix.mul_assoc]

theorem laser_R_symm : laser_Rᵀ = laser_R := by
  ext a b
  fin_cases a <;> fin_cases b <;> simp [laser_R]

theorem radar_R_symm : radar_Rᵀ = radar_R := by
  ext a b
  fin_cases a <;> fin_cases b <;> simp [radar_R, Matrix.vecHead, Matrix.vecTail]

theorem UpdateLidar_P_symm (s : State) (m : MeasurementPackage) (hP : (s.P_)ᵀ = s.P_) :
    ((UpdateLidar s m).P_)ᵀ = (UpdateLidar s m).P_ := by
  exact updateState_P_symm s _ _ ![m.raw_measurements_ 0, m.raw_measurements_ 1]
    (lidarPrediction s).2 false hP
    (calculateMeasurementCovarianceMatrix_symm s _ _ laser_R false laser_R_symm)

theorem UpdateRadar_P_symm (s : State) (m : MeasurementPackage) (hP : (s.P_)ᵀ = s.P_) :
    ((UpdateRadar s m).P_)ᵀ = (UpdateRadar s m).P_ := by
  exact updateState_P_symm s _ _
    ![m.raw_measurements_ 0, m.raw_measurements_ 1, m.raw_measurements_ 2]
    (radarPrediction s).2 true hP
    (calculateMeasurementCovarianceMatrix_symm s _ _ radar_R true radar_R_symm)

theorem specFullCycle_P_symm (llt : Matrix (Fin 7) (Fin 7) ℝ → Matrix (Fin 7) (Fin 7) ℝ)
    (s : State) (m : MeasurementPackage) :
    ((specFullCycle llt s m).P_)ᵀ = (specFullCycle llt s m).P_ := by
  unfold specFullCycle
  cases m.sensor_type_
  · exact UpdateLidar_P_symm _ m (Prediction_P_symm llt _)
  · exact UpdateRadar_P_symm _ m (Prediction_P_symm llt _)

/-! ## The linear Kalman update behind `UpdateLidar` -/

theorem kalman_update_posSemidef {n m : ℕ} (P : Matrix (Fin n) (Fin n) ℝ)
    (H : Matrix (Fin m) (Fin n) ℝ) (R : Matrix (Fin m) (Fin m) ℝ)
    (hP : P.PosSemidef) (hR : R.PosDef) :
    (P - (P * Hᵀ * (H * P * Hᵀ + R)⁻¹) * (H * P * Hᵀ + R)
        * (P * Hᵀ * (H * P * Hᵀ + R)⁻¹)ᵀ).PosSemidef := by
  have hHPH : (H * P * Hᵀ).PosSemidef := by
    have := hP.mul_mul_conjTranspose_same H
    rwa [conjTranspose_eq_transpose_of_trivial] at this
  have hS : (H * P * Hᵀ + R).PosDef := PosDef.posSemidef_add hHPH hR
  have hPt : Pᵀ = P := by
    have := hP.1
    rwa [IsHermitian, conjTranspose_eq_transpose_of_trivial] at this
  have hSt : (H * P * Hᵀ + R)ᵀ = H * P * Hᵀ + R := by
    have := hS.1
    rwa [IsHermitian, conjTranspose_eq_transpose_of_trivial] at this
  have hdet : IsUnit (H * P * Hᵀ + R).det := (Matrix.isUnit_iff_isUnit_det _).mp hS.isUnit
  generalize hSdef : H * P * Hᵀ + R = S at *
  generalize hKdef : P * Hᵀ * S⁻¹ = K
  have hKS : K * S = P * Hᵀ := by
    rw [← hKdef, Matrix.mul_assoc, Matrix.nonsing_inv_mul _ hdet, Matrix.mul_one]
  have hA1 : P * Hᵀ * Kᵀ = K * S * Kᵀ := by rw [hKS]
  have hA2 : K * H * P = K * S * Kᵀ := by
    have h := congrArg transpose hA1
    rw [transpose_mul, transpose_mul, transpose_transpose, transpose_transpose, hPt,
      ← Matrix.mul_assoc] at h
    rw [h, transpose_mul, transpose_mul, transpose_transpose, hSt, Matrix.mul_assoc]
  have hSplit : K * S * Kᵀ = K * (H * P * Hᵀ) * Kᵀ + K * R * Kᵀ := by
    rw [← hSdef, Matrix.mul_add, Matrix.add_mul]
  have hJoseph : P - K * S * Kᵀ = (1 - K * H) * P * (1 - K * H)ᵀ + K * R * Kᵀ := by
    have e1 : (1 - K * H) * P * (1 - K * H)ᵀ
        = P - P * Hᵀ * Kᵀ - K * H * P + K * (H * P * Hᵀ) * Kᵀ := by
      rw [transpose_sub, transpose_one, transpose_mul]
      simp only [Matrix.sub_mul, Matrix.mul_sub, Matrix.one_mul, Matrix.mul_one,
        Matrix.mul_assoc]
      abel
    rw [e1, hA1, hA2]
    have e2 : K * (H * P * Hᵀ) * Kᵀ = K * S * Kᵀ - K * R * Kᵀ := by
      rw [hSplit]; abel
    rw [e2]; abel
  rw [hJoseph]
  apply PosSemidef.add
  · have := hP.mul_mul_conjTranspose_same (1 - K * H)
    rwa [conjTranspose_eq_transpose_of_trivial] at this
  · have := hR.posSemidef.mul_mul_conjTranspose_same K
    rwa [conjTranspose_eq_transpose_of_trivial] at this

theorem laser_R_posDef : laser_R.PosDef := by
  have e : laser_R = Matrix.diagonal (fun _ => (0.15 * 0.15 : ℝ)) := by
    ext a b
    fin_cases a <;> fin_cases b <;> simp [laser_R, std_laspx_, std_laspy_]
  rw [e]
  apply PosDef.diagonal
  intro i
  norm_num

theorem Prediction_Predicted (llt : Matrix (Fin 7) (Fin 7) ℝ → Matrix (Fin 7) (Fin 7) ℝ)
    (s : State) : Predicted (Prediction llt s) := by
  unfold Predicted Prediction
  refine ⟨?_, ?_⟩ <;> simp only [weightsAndMean_eq, predictedCovariance_eq]

theorem castLE_one_two_five : Fin.castLE (by norm_num : 2 ≤ 5) (1 : Fin 2) = (1 : Fin 5) :=
  rfl

theorem measurementMatrix_mul_mul (P : Matrix (Fin 5) (Fin 5) ℝ) (a b : Fin 2) :
    (measurementMatrix * P * measurementMatrixᵀ) a b
      = P (Fin.castLE (by norm_num) a) (Fin.castLE (by norm_num) b) := by
  fin_cases a <;> fin_cases b <;>
    simp [Matrix.mul_apply, Fin.sum_univ_succ, measurementMatrix, castLE_one_two_five]

theorem mul_measurementMatrix_transpose (P : Matrix (Fin 5) (Fin 5) ℝ) (r : Fin 5)
    (b : Fin 2) :
    (P * measurementMatrixᵀ) r b = P r (Fin.castLE (by norm_num) b) := by
  fin_cases b <;>
    simp [Matrix.mul_apply, Fin.sum_univ_succ, measurementMatrix, castLE_one_two_five]

theorem lidar_z_pred (s : State) (hs : Predicted s) (a : Fin 2) :
    (lidarPrediction s).2 a = s.x_ (Fin.castLE (by norm_num) a) := by
  rw [lidarPrediction_eq]
  conv_rhs => rw [hs.1]
  simp only [Finset.sum_apply, Pi.smul_apply, smul_eq_mul, column]
  fin_cases a <;> simp [castLE_one_two_five]

theorem lidar_z_diff (s : State) (hs : Predicted s) (i : Fin 15) (a : Fin 2) :
    (column (lidarPrediction s).1 i - (lidarPrediction s).2) a
      = normalizeAngles 3 (column s.Xsig_pred_ i - s.x_) (Fin.castLE (by norm_num) a) := by
  rw [normalizeAngles_other 3 _ _ (by fin_cases a <;> simp)]
  rw [Pi.sub_apply, lidar_z_pred s hs a, lidarPrediction_eq]
  fin_cases a <;> simp [column, castLE_one_two_five]

theorem lidar_S_eq (s : State) (hs : Predicted s) :
    calculateMeasurementCovarianceMatrix s (lidarPrediction s).1 (lidarPrediction s).2
        laser_R false
      = measurementMatrix * s.P_ * measurementMatrixᵀ + laser_R := by
  rw [calculateMeasurementCovarianceMatrix_eq]
  congr 1
  ext a b
  rw [measurementMatrix_mul_mul]
  conv_rhs => rw [hs.2]
  simp only [Matrix.sum_apply, vecMulVec_apply, Pi.smul_apply, smul_eq_mul, Bool.false_eq_true,
    if_false]
  exact Finset.sum_congr rfl (fun i _ => by rw [lidar_z_diff s hs i a, lidar_z_diff s hs i b])

theorem lidar_Tc_eq (s : State) (hs : Predicted s) :
    calculateCrossCorrelationMatrix s (lidarPrediction s).1 (lidarPrediction s).2 false
      = s.P_ * measurementMatrixᵀ := by
  rw [calculateCrossCorrelationMatrix_eq]
  ext r b
  rw [mul_measurementMatrix_transpose]
  conv_rhs => rw [hs.2]
  simp only [Matrix.sum_apply, vecMulVec_apply, Pi.smul_apply, smul_eq_mul, Bool.false_eq_true,
    if_false]
  exact Finset.sum_congr rfl (fun i _ => by rw [lidar_z_diff s hs i b])

theorem UpdateLidar_P_eq (s : State) (hs : Predicted s) (m : MeasurementPackage) :
    (UpdateLidar s m).P_
      = s.P_ - (s.P_ * measurementMatrixᵀ
            * (measurementMatrix * s.P_ * measurementMatrixᵀ + laser_R)⁻¹)
          * (measurementMatrix * s.P_ * measurementMatrixᵀ + laser_R)
          * (s.P_ * measurementMatrixᵀ
            * (measurementMatrix * s.P_ * measurementMatrixᵀ + laser_R)⁻¹)ᵀ := by
  show s.P_ - _ * _ * _ᵀ = _
  rw [lidar_S_eq s hs, lidar_Tc_eq s hs]

/-! ## C10: the laser update keeps the covariance positive-semidefinite -/

/-- C10: whenever the covariance that `Prediction` produces is symmetric
positive-semidefinite, the covariance `P - K S K^T` that the immediately following
`UpdateLidar` stores is symmetric positive-semidefinite, for every LASER measurement. -/
theorem updateLidar_covariance_posSemidef
    (llt : Matrix (Fin 7) (Fin 7) ℝ → Matrix (Fin 7) (Fin 7) ℝ)
    (s : State) (m : MeasurementPackage)
    (hP : ((Prediction llt s).P_).PosSemidef) :
    ((UpdateLidar (Prediction llt s) m).P_).PosSemidef
      ∧ ((UpdateLidar (Prediction llt s) m).P_)ᵀ = (UpdateLidar (Prediction llt s) m).P_
      ∧ ∀ v : Fin 5 → ℝ, 0 ≤ v ⬝ᵥ ((UpdateLidar (Prediction llt s) m).P_ *ᵥ v) := by
  have h : ((UpdateLidar (Prediction llt s) m).P_).PosSemidef := by
    rw [UpdateLidar_P_eq _ (Prediction_Predicted llt s) m]
    exact kalman_update_posSemidef _ measurementMatrix laser_R hP laser_R_posDef
  refine ⟨h, ?_, ?_⟩
  · have := h.1
    rwa [IsHermitian, conjTranspose_eq_transpose_of_trivial] at this
  · intro v
    have := h.2 v
    rwa [star_trivial] at this

/-! ## A sample prediction, evaluated -/

theorem predictSigmaPoint_zero_time (calc_col : Fin 7 → ℝ) :
    predictSigmaPoint 0 calc_col = fun r => calc_col (Fin.castLE (by norm_num) r) := by
  funext r
  unfold predictSigmaPoint vec1 vec2
  by_cases h : calc_col 4 > 0.001
  · simp only [h, if_true, Pi.add_apply]
    fin_cases r <;> simp
  · simp only [h, if_false, Pi.add_apply]
    fin_cases r <;> simp

theorem sigma_column_cases (c : Fin 15) :
    c = 0 ∨ (∃ k : Fin 7, c = ⟨k.val + 1, by omega⟩)
      ∨ (∃ k : Fin 7, c = ⟨k.val + 1 + 7, by omega⟩) := by
  obtain ⟨v, hv⟩ := c
  by_cases h0 : v = 0
  · left; exact Fin.ext h0
  · by_cases h7 : v ≤ 7
    · right; left
      exact ⟨⟨v - 1, by omega⟩, Fin.ext (by simp; omega)⟩
    · right; right
      exact ⟨⟨v - 8, by omega⟩, Fin.ext (by simp; omega)⟩

theorem sample_sigma_top_rows (c : Fin 15) (r : Fin 5) :
    Xsig_aug_ (x_aug_ sampleStorage)
      (sampleLlt (P_aug_ sampleStorage)) (Fin.castLE (by norm_num) r) c = 0 := by
  have hx : ∀ j : Fin 7, x_aug_ sampleStorage j = 0 := by
    intro j
    unfold x_aug_ sampleStorage
    split_ifs <;> rfl
  have hA : ∀ k : Fin 7, sampleLlt (P_aug_ sampleStorage)
      (Fin.castLE (by norm_num) r) k = 0 := by
    intro k
    unfold sampleLlt
    by_cases hk : Fin.castLE (by norm_num : 5 ≤ 7) r = k
    · subst hk
      have hlt : (Fin.castLE (by norm_num : 5 ≤ 7) r).val < 5 := by simp
      simp [Matrix.diagonal, P_aug_, sampleStorage]
    · simp [Matrix.diagonal, hk]
  rcases sigma_column_cases c with h | ⟨k, h⟩ | ⟨k, h⟩
  · subst h
    have e := congrFun (sigmaPoints_columns (x_aug_ sampleStorage)
      (sampleLlt (P_aug_ sampleStorage)) 0).1 (Fin.castLE (by norm_num) r)
    simp only [column] at e
    rw [e, hx]
  · subst h
    have e := congrFun (sigmaPoints_columns (x_aug_ sampleStorage)
      (sampleLlt (P_aug_ sampleStorage)) k).2.1 (Fin.castLE (by norm_num) r)
    simp only [column, Pi.add_apply, Pi.smul_apply, smul_eq_mul] at e
    rw [e, hx, hA]
    simp
  · subst h
    have e := congrFun (sigmaPoints_columns (x_aug_ sampleStorage)
      (sampleLlt (P_aug_ sampleStorage)) k).2.2 (Fin.castLE (by norm_num) r)
    simp only [column, Pi.sub_apply, Pi.smul_apply, smul_eq_mul] at e
    rw [e, hx, hA]
    simp

theorem normalizeAngles_zero {n : ℕ} (i : ℕ) : normalizeAngles i (0 : Fin n → ℝ) = 0 := by
  have hpi := Real.pi_pos
  unfold normalizeAngles
  split_ifs with h h1 h2
  · simp at h1; linarith
  · simp at h2; linarith
  · rfl
  · rfl

theorem sample_prediction :
    (Prediction sampleLlt sampleStorage).Xsig_pred_ = 0
      ∧ (Prediction sampleLlt sampleStorage).x_ = 0
      ∧ (Prediction sampleLlt sampleStorage).P_ = 0 := by
  have hX : (Prediction sampleLlt sampleStorage).Xsig_pred_ = 0 := by
    show predictSigmaPoints sampleStorage.delta_t _ _ = 0
    rw [predictSigmaPoints_eq]
    have hd : sampleStorage.delta_t = 0 := rfl
    rw [hd]
    funext r c
    rw [predictSigmaPoint_zero_time]
    exact sample_sigma_top_rows c r
  have hp := Prediction_Predicted sampleLlt sampleStorage
  have hx : (Prediction sampleLlt sampleStorage).x_ = 0 := by
    rw [hp.1, hX]
    apply Finset.sum_eq_zero
    intro i _
    funext r
    simp [column]
  refine ⟨hX, hx, ?_⟩
  rw [hp.2, hX, hx]
  apply Finset.sum_eq_zero
  intro i _
  have hc : column (0 : Matrix (Fin 5) (Fin 15) ℝ) i - 0 = 0 := by
    funext r
    simp [column]
  rw [hc, normalizeAngles_zero]
  ext a b
  simp [vecMulVec_apply]

/-! ## C12: each update writes its own NIS value only -/

theorem ProcessMeasurement_cases
    (llt : Matrix (Fin 7) (Fin 7) ℝ → Matrix (Fin 7) (Fin 7) ℝ)
    (s : State) (m : MeasurementPackage) :
    ProcessMeasurement llt s m = s ∨ ProcessMeasurement llt s m = specInitOnly s m
      ∨ ProcessMeasurement llt s m = specFullCycle llt s m := by
  by_cases hs : isSupported s m = true
  · by_cases ht : s.time_us_ < 0
    · exact Or.inr (Or.inl (ProcessMeasurement_first llt s m hs ht))
    · exact Or.inr (Or.inr (ProcessMeasurement_cycle llt s m hs (not_lt.mp ht)))
  · exact Or.inl (ProcessMeasurement_disabled llt s m (by simpa using hs))

/-- C12: for every state and measurement, `UpdateLidar` leaves `NIS_radar_` unchanged,
`UpdateRadar` leaves `NIS_laser_` unchanged, and `Prediction` changes neither; so a
`ProcessMeasurement` call for a LASER measurement (a full cycle included) leaves
`NIS_radar_` unchanged, and one for a RADAR measurement leaves `NIS_laser_` unchanged. -/
theorem nis_of_other_sensor_unchanged
    (llt : Matrix (Fin 7) (Fin 7) ℝ → Matrix (Fin 7) (Fin 7) ℝ)
    (s : State) (m : MeasurementPackage) :
    (UpdateLidar s m).NIS_radar_ = s.NIS_radar_
      ∧ (UpdateRadar s m).NIS_laser_ = s.NIS_laser_
      ∧ (Prediction llt s).NIS_radar_ = s.NIS_radar_
      ∧ (Prediction llt s).NIS_laser_ = s.NIS_laser_
      ∧ (m.sensor_type_ = SensorType.LASER →
          (ProcessMeasurement llt s m).NIS_radar_ = s.NIS_radar_)
      ∧ (m.sensor_type_ = SensorType.RADAR →
          (ProcessMeasurement llt s m).NIS_laser_ = s.NIS_laser_) := by
  refine ⟨rfl, rfl, rfl, rfl, ?_, ?_⟩
  · intro hm
    rcases ProcessMeasurement_cases llt s m with h | h | h
    · rw [h]
    · rw [h]; unfold specInitOnly; rw [hm]; rfl
    · rw [h]; unfold specFullCycle; rw [hm]; rfl
  · intro hm
    rcases ProcessMeasurement_cases llt s m with h | h | h
    · rw [h]
    · rw [h]; unfold specInitOnly; rw [hm]; rfl
    · rw [h]; unfold specFullCycle; rw [hm]; rfl

/-! ## Measurements of a switched-off sensor in a stream -/

theorem processAll_disabled (llt : Matrix (Fin 7) (Fin 7) ℝ → Matrix (Fin 7) (Fin 7) ℝ)
    (s : State) (ds : List MeasurementPackage)
    (hd : ∀ d ∈ ds, isSupported s d = false) : processAll llt s ds = s := by
  induction ds with
  | nil => rfl
  | cons d ds ih =>
    show processAll llt (ProcessMeasurement llt s d) ds = s
    rw [ProcessMeasurement_disabled llt s d (hd d (List.mem_cons_self _ _))]
    exact ih (fun x hx => hd x (List.mem_cons_of_mem _ hx))

/-! ## C14: a first measurement of a switched-off sensor -/

/-- C14 (the code at the failing input): a freshly constructed filter with the laser
switched off is given the laser reading `(3, 4)` at time 10.  `ProcessMeasurement` returns
at the `isSupported` test, before `init`: the object is unchanged, the clock is still `-1`
(not initialised), and the result is not the state that initialisation from this reading
would give, although the comments at `ukf.h:66` and `ukf.cpp:15` say a switched-off
sensor is ignored "except for init". -/
theorem processMeasurement_disabled_first_not_initialised :
    ProcessMeasurement sampleLlt (construct false true sampleStorage) (sampleLaser 10)
        = construct false true sampleStorage
      ∧ (ProcessMeasurement sampleLlt (construct false true sampleStorage)
          (sampleLaser 10)).time_us_ = -1
      ∧ (ProcessMeasurement sampleLlt (construct false true sampleStorage)
          (sampleLaser 10)).x_ = 0
      ∧ (specInitOnly (construct false true sampleStorage) (sampleLaser 10)).time_us_ = 10
      ∧ (specInitOnly (construct false true sampleStorage) (sampleLaser 10)).x_ 0 = 3
      ∧ ProcessMeasurement sampleLlt (construct false true sampleStorage) (sampleLaser 10)
        ≠ specInitOnly (construct false true sampleStorage) (sampleLaser 10) := by
  have e : ProcessMeasurement sampleLlt (construct false true sampleStorage) (sampleLaser 10)
      = construct false true sampleStorage :=
    ProcessMeasurement_disabled sampleLlt _ _ rfl
  refine ⟨e, by rw [e]; rfl, by rw [e]; rfl, rfl, ?_, ?_⟩
  · simp [specInitOnly, sampleLaser, lidarInit]
  · rw [e]
    intro h
    have ht := congrArg State.time_us_ h
    simp [specInitOnly, sampleLaser, lidarInit, construct] at ht

/-! ## C15: the branch test of the motion model -/

theorem vec1_eq (delta_t : ℝ) (calc_col : Fin 7 → ℝ) :
    vec1 delta_t calc_col
      = if calc_col 4 > 0.001 then
          turningDisplacement (calc_col 2) (calc_col 3) (calc_col 4) delta_t
        else straightDisplacement (calc_col 2) (calc_col 3) (calc_col 4) delta_t := by
  rfl

/-- C15 (the code at the failing input): for the sigma point with speed 1, heading 0 and
turn rate `-1`, whose absolute turn rate exceeds `0.001`, and elapsed time 1, the code
tests `yawd > .001` without the absolute value and takes the straight-line branch: `vec1`
is `(1, 0, 0, -1, 0)`, while the displacement the claim gives for `|psid| > 0.001` is the
turning one, `(sin 1, cos 1 - 1, 0, -1, 0)`, whose first entry is below 1. -/
theorem vec1_negative_turn_rate_straight :
    |leftTurnPoint 4| > 0.001
      ∧ vec1 1 leftTurnPoint = ![1, 0, 0, -1, 0]
      ∧ vec1 1 leftTurnPoint = straightDisplacement 1 0 (-1) 1
      ∧ specDisplacement 1 0 (-1) 1 = turningDisplacement 1 0 (-1) 1
      ∧ specDisplacement 1 0 (-1) 1 0 = Real.sin 1
      ∧ vec1 1 leftTurnPoint ≠ specDisplacement 1 0 (-1) 1 := by
  have h4 : leftTurnPoint 4 = -1 := rfl
  have h2 : leftTurnPoint 2 = 1 := rfl
  have h3 : leftTurnPoint 3 = 0 := rfl
  have hs : vec1 1 leftTurnPoint = straightDisplacement 1 0 (-1) 1 := by
    rw [vec1_eq, h4, h2, h3, if_neg (by norm_num)]
  have hv : vec1 1 leftTurnPoint = ![1, 0, 0, -1, 0] := by
    rw [hs]
    funext r
    fin_cases r <;> simp [straightDisplacement]
  have hspec : specDisplacement 1 0 (-1) 1 = turningDisplacement 1 0 (-1) 1 := by
    unfold specDisplacement
    rw [if_pos (by norm_num)]
  have h0 : specDisplacement 1 0 (-1) 1 0 = Real.sin 1 := by
    rw [hspec]
    simp [turningDisplacement]
  refine ⟨by rw [h4]; norm_num, hv, hs, hspec, h0, ?_⟩
  intro h
  have h1 := congrFun h 0
  rw [hv, h0] at h1
  have hlt : Real.sin 1 < 1 := Real.sin_lt (by norm_num)
  simp at h1
  linarith

/-! ## C20: one application of the normaliser -/

theorem normalizeAngles_of_mem_Icc {n : ℕ} (i : ℕ) (h : i < n) (w : Fin n → ℝ)
    (hw : w ⟨i, h⟩ ∈ Set.Icc (-Real.pi) Real.pi) : normalizeAngles i w = w := by
  rw [Set.mem_Icc] at hw
  unfold normalizeAngles
  rw [dif_pos h, if_neg (by linarith [hw.2]), if_neg (by linarith [hw.1])]

/-- C20: for every vector and index `i` whose entry `r` satisfies `-3 pi <= r <= 3 pi`,
`normalizeAngles` leaves entry `i` equal to `r`, `r - 2 pi` or `r + 2 pi`, with the result
in the closed interval `[-pi, pi]`; it leaves every other entry unchanged; and applying it
a second time changes nothing. -/
theorem normalizeAngles_single_shift {n : ℕ} (i : ℕ) (h : i < n) (vect : Fin n → ℝ)
    (hlo : -(3 * Real.pi) ≤ vect ⟨i, h⟩) (hhi : vect ⟨i, h⟩ ≤ 3 * Real.pi) :
    (normalizeAngles i vect ⟨i, h⟩ = vect ⟨i, h⟩
        ∨ normalizeAngles i vect ⟨i, h⟩ = vect ⟨i, h⟩ - 2 * Real.pi
        ∨ normalizeAngles i vect ⟨i, h⟩ = vect ⟨i, h⟩ + 2 * Real.pi)
      ∧ normalizeAngles i vect ⟨i, h⟩ ∈ Set.Icc (-Real.pi) Real.pi
      ∧ (∀ j : Fin n, j.val ≠ i → normalizeAngles i vect j = vect j)
      ∧ normalizeAngles i (normalizeAngles i vect) = normalizeAngles i vect := by
  have hpi := Real.pi_pos
  have hrange : normalizeAngles i vect ⟨i, h⟩ ∈ Set.Icc (-Real.pi) Real.pi := by
    rw [normalizeAngles_entry i h vect, Set.mem_Icc]
    split_ifs with h1 h2
    · exact ⟨by linarith, by linarith⟩
    · exact ⟨by linarith, by linarith⟩
    · exact ⟨by linarith, by linarith⟩
  refine ⟨?_, hrange, fun j hj => normalizeAngles_other i vect j hj, ?_⟩
  · rw [normalizeAngles_entry i h vect]
    split_ifs
    · exact Or.inr (Or.inl rfl)
    · exact Or.inr (Or.inr rfl)
    · exact Or.inl rfl
  · exact normalizeAngles_of_mem_Icc i h _ hrange

/-- Witness for C20: the heading residual `4` at index 3 of a state residual lies between
`-3 pi` and `3 pi`; it is shifted once, to `4 - 2 pi`. -/
theorem normalizeAngles_single_shift_witness :
    (3 < 5
        ∧ -(3 * Real.pi) ≤ (![0, 0, 0, 4, 0] : Fin 5 → ℝ) ⟨3, by norm_num⟩
        ∧ (![0, 0, 0, 4, 0] : Fin 5 → ℝ) ⟨3, by norm_num⟩ ≤ 3 * Real.pi)
      ∧ normalizeAngles 3 (![0, 0, 0, 4, 0] : Fin 5 → ℝ) ⟨3, by norm_num⟩
          ∈ Set.Icc (-Real.pi) Real.pi
      ∧ normalizeAngles 3 (normalizeAngles 3 (![0, 0, 0, 4, 0] : Fin 5 → ℝ))
          = normalizeAngles 3 (![0, 0, 0, 4, 0] : Fin 5 → ℝ) :=
  have hv : (![0, 0, 0, 4, 0] : Fin 5 → ℝ) ⟨3, by norm_num⟩ = 4 := rfl
  have h3 := Real.pi_gt_three
  have hlo : -(3 * Real.pi) ≤ (![0, 0, 0, 4, 0] : Fin 5 → ℝ) ⟨3, by norm_num⟩ := by
    rw [hv]; linarith
  have hhi : (![0, 0, 0, 4, 0] : Fin 5 → ℝ) ⟨3, by norm_num⟩ ≤ 3 * Real.pi := by
    rw [hv]; linarith
  ⟨⟨by norm_num, hlo, hhi⟩,
    (normalizeAngles_single_shift 3 (by norm_num) (![0, 0, 0, 4, 0] : Fin 5 → ℝ) hlo hhi).2.1,
    (normalizeAngles_single_shift 3 (by norm_num) (![0, 0, 0, 4, 0] : Fin 5 → ℝ)
      hlo hhi).2.2.2⟩

/-! ## C17: the laser update is the linear Kalman update -/

theorem measurementMatrix_mulVec (x : Fin 5 → ℝ) :
    measurementMatrix *ᵥ x = ![x 0, x 1] := by
  funext a
  fin_cases a <;> simp [Matrix.mulVec, Matrix.dotProduct, Fin.sum_univ_succ, measurementMatrix]

theorem lidar_z_pred_eq (s : State) (hs : Predicted s) :
    (lidarPrediction s).2 = ![s.x_ 0, s.x_ 1] := by
  funext a
  rw [lidar_z_pred s hs a]
  fin_cases a <;> simp [castLE_one_two_five]

/-- C17: immediately after `Prediction`, for every prior state, elapsed time and square
root (wrapped heading residuals included), the quantities of `UpdateLidar` are those of the
linear Kalman update with `H = [I2 | 0]`: the predicted measurement mean is `(x_(0), x_(1))`,
the innovation covariance `S` is the top-left 2x2 block of the predicted `P_` plus `laser_R`,
the cross-correlation `Tc` is the first two columns of the predicted `P_`; so
`S = H P H^T + R`, `Tc = P H^T`, and the update stores `x + K (z - H x)` and `P - K S K^T`
with `K = P H^T S^-1`. -/
theorem updateLidar_is_linear_kalman_update
    (llt : Matrix (Fin 7) (Fin 7) ℝ → Matrix (Fin 7) (Fin 7) ℝ)
    (s : State) (m : MeasurementPackage) :
    (lidarPrediction (Prediction llt s)).2
        = ![(Prediction llt s).x_ 0, (Prediction llt s).x_ 1]
      ∧ (∀ a b : Fin 2,
          calculateMeasurementCovarianceMatrix (Prediction llt s)
              (lidarPrediction (Prediction llt s)).1 (lidarPrediction (Prediction llt s)).2
              laser_R false a b
            = (Prediction llt s).P_ (Fin.castLE (by norm_num) a) (Fin.castLE (by norm_num) b)
              + laser_R a b)
      ∧ (∀ (r : Fin 5) (b : Fin 2),
          calculateCrossCorrelationMatrix (Prediction llt s)
              (lidarPrediction (Prediction llt s)).1 (lidarPrediction (Prediction llt s)).2
              false r b
            = (Prediction llt s).P_ r (Fin.castLE (by norm_num) b))
      ∧ calculateMeasurementCovarianceMatrix (Prediction llt s)
            (lidarPrediction (Prediction llt s)).1 (lidarPrediction (Prediction llt s)).2
            laser_R false
          = measurementMatrix * (Prediction llt s).P_ * measurementMatrixᵀ + laser_R
      ∧ calculateCrossCorrelationMatrix (Prediction llt s)
            (lidarPrediction (Prediction llt s)).1 (lidarPrediction (Prediction llt s)).2 false
          = (Prediction llt s).P_ * measurementMatrixᵀ
      ∧ (UpdateLidar (Prediction llt s) m).x_
          = (Prediction llt s).x_
            + ((Prediction llt s).P_ * measurementMatrixᵀ
                * (measurementMatrix * (Prediction llt s).P_ * measurementMatrixᵀ
                    + laser_R)⁻¹)
              *ᵥ (![m.raw_measurements_ 0, m.raw_measurements_ 1]
                    - measurementMatrix *ᵥ (Prediction llt s).x_)
      ∧ (UpdateLidar (Prediction llt s) m).P_
          = (Prediction llt s).P_
            - ((Prediction llt s).P_ * measurementMatrixᵀ
                * (measurementMatrix * (Prediction llt s).P_ * measurementMatrixᵀ
                    + laser_R)⁻¹)
              * (measurementMatrix * (Prediction llt s).P_ * measurementMatrixᵀ + laser_R)
              * ((Prediction llt s).P_ * measurementMatrixᵀ
                * (measurementMatrix * (Prediction llt s).P_ * measurementMatrixᵀ
                    + laser_R)⁻¹)ᵀ := by
  have hp := Prediction_Predicted llt s
  have hS := lidar_S_eq _ hp
  have hT := lidar_Tc_eq _ hp
  have hz := lidar_z_pred_eq _ hp
  refine ⟨hz, ?_, ?_, hS, hT, ?_, UpdateLidar_P_eq _ hp m⟩
  · intro a b
    rw [hS, Matrix.add_apply, measurementMatrix_mul_mul]
  · intro r b
    rw [hT, mul_measurementMatrix_transpose]
  · show (Prediction llt s).x_ + (_ * _⁻¹) *ᵥ (_ - _) = _
    rw [hS, hT, hz, measurementMatrix_mulVec]

/-! ## Sums over the fifteen sigma points -/

theorem sum_sigma_columns {β : Type} [AddCommMonoid β] (f : Fin 15 → β) :
    ∑ i : Fin 15, f i
      = f 0 + ∑ k : Fin 7, f ⟨k.val + 1, by omega⟩
        + ∑ k : Fin 7, f ⟨k.val + 1 + 7, by omega⟩ := by
  have h1 : ∑ i : Fin 15, f i = f 0 + ∑ j : Fin 14, f j.succ := Fin.sum_univ_succ f
  have h2 : ∑ j : Fin 14, f j.succ
      = ∑ k : Fin 7, f (Fin.castAdd 7 k).succ + ∑ k : Fin 7, f (Fin.natAdd 7 k).succ :=
    Fin.sum_univ_add (fun j : Fin (7 + 7) => f j.succ)
  have e1 : ∀ k : Fin 7, f (Fin.castAdd 7 k).succ = f ⟨k.val + 1, by omega⟩ := fun k => rfl
  have e2 : ∀ k : Fin 7, f (Fin.natAdd 7 k).succ = f ⟨k.val + 1 + 7, by omega⟩ := by
    intro k
    congr 1
    apply Fin.ext
    show 7 + k.val + 1 = k.val + 1 + 7
    omega
  rw [h1, h2, add_assoc]
  simp only [e1, e2]

theorem Xsig_aug_entries (x_aug : Fin 7 → ℝ) (A_aug : Matrix (Fin 7) (Fin 7) ℝ)
    (r k : Fin 7) :
    Xsig_aug_ x_aug A_aug r 0 = x_aug r
      ∧ Xsig_aug_ x_aug A_aug r ⟨k.val + 1, by omega⟩
          = x_aug r + Real.sqrt (lambda_ + n_aug_) * A_aug r k
      ∧ Xsig_aug_ x_aug A_aug r ⟨k.val + 1 + 7, by omega⟩
          = x_aug r - Real.sqrt (lambda_ + n_aug_) * A_aug r k := by
  have h := sigmaPoints_columns x_aug A_aug k
  refine ⟨?_, ?_, ?_⟩
  · have e := congrFun h.1 r
    simpa [column] using e
  · have e := congrFun h.2.1 r
    simpa [column] using e
  · have e := congrFun h.2.2 r
    simpa [column] using e

theorem sigma_weight_values (k : Fin 7) :
    ((if (0 : Fin 15) = 0 then (-2 / 5 : ℝ) else 1 / 10) = -2 / 5)
      ∧ ((if (⟨k.val + 1, by omega⟩ : Fin 15) = 0 then (-2 / 5 : ℝ) else 1 / 10) = 1 / 10)
      ∧ ((if (⟨k.val + 1 + 7, by omega⟩ : Fin 15) = 0 then (-2 / 5 : ℝ) else 1 / 10)
          = 1 / 10) := by
  refine ⟨by simp, ?_, ?_⟩
  · rw [if_neg]
    intro e
    have := congrArg Fin.val e
    simp at this
  · rw [if_neg]
    intro e
    have := congrArg Fin.val e
    simp at this

theorem weighted_sigma_sum (x_aug : Fin 7 → ℝ) (A_aug : Matrix (Fin 7) (Fin 7) ℝ)
    (r : Fin 7) :
    ∑ i : Fin 15, (if i = 0 then (-2 / 5 : ℝ) else 1 / 10) * Xsig_aug_ x_aug A_aug r i
      = x_aug r := by
  rw [sum_sigma_columns]
  simp only [fun k => (Xsig_aug_entries x_aug A_aug r k).2.1,
    fun k => (Xsig_aug_entries x_aug A_aug r k).2.2,
    (Xsig_aug_entries x_aug A_aug r 0).1,
    fun k => (sigma_weight_values k).2.1, fun k => (sigma_weight_values k).2.2,
    (sigma_weight_values 0).1]
  rw [add_assoc, ← Finset.sum_add_distrib]
  have : ∀ k : Fin 7,
      1 / 10 * (x_aug r + Real.sqrt (lambda_ + n_aug_) * A_aug r k)
        + 1 / 10 * (x_aug r - Real.sqrt (lambda_ + n_aug_) * A_aug r k)
      = 1 / 5 * x_aug r := fun k => by ring
  simp only [this, Finset.sum_const, Finset.card_univ, Fintype.card_fin, nsmul_eq_mul]
  push_cast
  ring

/-! ## C18: speed, heading and turn rate of the predicted mean -/

theorem Prediction_x_apply (llt : Matrix (Fin 7) (Fin 7) ℝ → Matrix (Fin 7) (Fin 7) ℝ)
    (s : State) (r : Fin 5) :
    (Prediction llt s).x_ r
      = ∑ i : Fin 15, (if i = 0 then (-2 / 5 : ℝ) else 1 / 10)
          * predictSigmaPoint s.delta_t
              (column (Xsig_aug_ (x_aug_ s) (llt (P_aug_ s))) i) r := by
  have hp := (Prediction_Predicted llt s).1
  have hX : (Prediction llt s).Xsig_pred_
      = fun r c => predictSigmaPoint s.delta_t
          (column (Xsig_aug_ (x_aug_ s) (llt (P_aug_ s))) c) r :=
    predictSigmaPoints_eq _ _ _
  rw [hp, hX]
  simp only [Finset.sum_apply, Pi.smul_apply, smul_eq_mul, column,
    Prediction_weights_values]

theorem predictSigmaPoint_linear_entries (delta_t : ℝ) (calc_col : Fin 7 → ℝ) :
    predictSigmaPoint delta_t calc_col 2 = calc_col 2 + delta_t * calc_col 5
      ∧ predictSigmaPoint delta_t calc_col 3
          = calc_col 3 + calc_col 4 * delta_t + 0.5 * delta_t * delta_t * calc_col 6
      ∧ predictSigmaPoint delta_t calc_col 4 = calc_col 4 + delta_t * calc_col 6 := by
  have hsum : ∀ r : Fin 5, predictSigmaPoint delta_t calc_col r
      = calc_col (Fin.castLE (by norm_num) r) + vec1 delta_t calc_col r
        + vec2 delta_t calc_col r := fun r => rfl
  have h2 : vec1 delta_t calc_col 2 = 0 := by
    rw [vec1_eq]; split_ifs <;> rfl
  have h3 : vec1 delta_t calc_col 3 = calc_col 4 * delta_t := by
    rw [vec1_eq]; split_ifs <;> rfl
  have h4 : vec1 delta_t calc_col 4 = 0 := by
    rw [vec1_eq]; split_ifs <;> rfl
  have g2 : vec2 delta_t calc_col 2 = delta_t * calc_col 5 := rfl
  have g3 : vec2 delta_t calc_col 3 = 0.5 * delta_t * delta_t * calc_col 6 := rfl
  have g4 : vec2 delta_t calc_col 4 = delta_t * calc_col 6 := rfl
  refine ⟨?_, ?_, ?_⟩
  · rw [hsum, h2, g2, add_zero]; rfl
  · rw [hsum, h3, g3]; rfl
  · rw [hsum, h4, g4, add_zero]; rfl

theorem x_aug_entries (s : State) :
    x_aug_ s 2 = s.x_ 2 ∧ x_aug_ s 3 = s.x_ 3 ∧ x_aug_ s 4 = s.x_ 4
      ∧ x_aug_ s 5 = 0 ∧ x_aug_ s 6 = 0 := by
  unfold x_aug_
  refine ⟨?_, ?_, ?_, ?_, ?_⟩
  · exact dif_pos (by decide)
  · exact dif_pos (by decide)
  · exact dif_pos (by decide)
  · exact dif_neg (by decide)
  · exact dif_neg (by decide)

/-- C18: for every prior mean `(px, py, v, psi, psid)`, every covariance, every square
root and every elapsed time `dt`, the mean that `Prediction` produces has speed component
exactly `v`, turn-rate component exactly `psid` and heading component exactly
`psi + psid * dt`, whichever branch of the motion model each sigma point takes. -/
theorem prediction_mean_speed_heading_turn_rate
    (llt : Matrix (Fin 7) (Fin 7) ℝ → Matrix (Fin 7) (Fin 7) ℝ) (s : State) :
    (Prediction llt s).x_ 2 = s.x_ 2
      ∧ (Prediction llt s).x_ 4 = s.x_ 4
      ∧ (Prediction llt s).x_ 3 = s.x_ 3 + s.x_ 4 * s.delta_t := by
  have hw := weighted_sigma_sum (x_aug_ s) (llt (P_aug_ s))
  have hx := x_aug_entries s
  refine ⟨?_, ?_, ?_⟩
  · rw [Prediction_x_apply]
    simp only [(predictSigmaPoint_linear_entries _ _).1, column, mul_add,
      Finset.sum_add_distrib]
    have e : ∀ i : Fin 15, (if i = 0 then (-2 / 5 : ℝ) else 1 / 10)
        * (s.delta_t * Xsig_aug_ (x_aug_ s) (llt (P_aug_ s)) 5 i)
        = s.delta_t * ((if i = 0 then (-2 / 5 : ℝ) else 1 / 10)
          * Xsig_aug_ (x_aug_ s) (llt (P_aug_ s)) 5 i) := fun i => by ring
    simp only [e, ← Finset.mul_sum, hw, hx.1, hx.2.2.2.1]
    ring
  · rw [Prediction_x_apply]
    simp only [(predictSigmaPoint_linear_entries _ _).2.2, column, mul_add,
      Finset.sum_add_distrib]
    have e : ∀ i : Fin 15, (if i = 0 then (-2 / 5 : ℝ) else 1 / 10)
        * (s.delta_t * Xsig_aug_ (x_aug_ s) (llt (P_aug_ s)) 6 i)
        = s.delta_t * ((if i = 0 then (-2 / 5 : ℝ) else 1 / 10)
          * Xsig_aug_ (x_aug_ s) (llt (P_aug_ s)) 6 i) := fun i => by ring
    simp only [e, ← Finset.mul_sum, hw, hx.2.2.1, hx.2.2.2.2]
    ring
  · rw [Prediction_x_apply]
    simp only [(predictSigmaPoint_linear_entries _ _).2.1, column, mul_add,
      Finset.sum_add_distrib]
    have e1 : ∀ i : Fin 15, (if i = 0 then (-2 / 5 : ℝ) else 1 / 10)
        * (Xsig_aug_ (x_aug_ s) (llt (P_aug_ s)) 4 i * s.delta_t)
        = s.delta_t * ((if i = 0 then (-2 / 5 : ℝ) else 1 / 10)
          * Xsig_aug_ (x_aug_ s) (llt (P_aug_ s)) 4 i) := fun i => by ring
    have e2 : ∀ i : Fin 15, (if i = 0 then (-2 / 5 : ℝ) else 1 / 10)
        * (0.5 * s.delta_t * s.delta_t * Xsig_aug_ (x_aug_ s) (llt (P_aug_ s)) 6 i)
        = (0.5 * s.delta_t * s.delta_t) * ((if i = 0 then (-2 / 5 : ℝ) else 1 / 10)
          * Xsig_aug_ (x_aug_ s) (llt (P_aug_ s)) 6 i) := fun i => by ring
    simp only [e1, e2, ← Finset.mul_sum, hw, hx.2.1, hx.2.2.1, hx.2.2.2.2]
    ring

/-! ## C19: prediction over zero elapsed time -/

theorem x_aug_castLE (s : State) (r : Fin 5) :
    x_aug_ s (Fin.castLE (by norm_num) r) = s.x_ r := by
  simp [x_aug_]

theorem P_aug_castLE (s : State) (a b : Fin 5) :
    P_aug_ s (Fin.castLE (by norm_num) a) (Fin.castLE (by norm_num) b) = s.P_ a b := by
  simp [P_aug_]

theorem sqrt_spread_mul_self : Real.sqrt (lambda_ + n_aug_) * Real.sqrt (lambda_ + n_aug_) = 5 := by
  have h : lambda_ + (n_aug_ : ℝ) = 5 := by norm_num [lambda_]
  rw [h]
  exact Real.mul_self_sqrt (by norm_num)

theorem Prediction_zero_time
    (llt : Matrix (Fin 7) (Fin 7) ℝ → Matrix (Fin 7) (Fin 7) ℝ) (s : State)
    (hdt : s.delta_t = 0)
    (hspread : ∀ k : Fin 7, Real.sqrt 5 * |llt (P_aug_ s) 3 k| ≤ Real.pi) :
    (Prediction llt s).x_ = s.x_
      ∧ ∀ a b : Fin 5, (Prediction llt s).P_ a b
          = ∑ k : Fin 7, llt (P_aug_ s) (Fin.castLE (by norm_num) a) k
              * llt (P_aug_ s) (Fin.castLE (by norm_num) b) k := by
  have hc5 : lambda_ + (n_aug_ : ℝ) = 5 := by norm_num [lambda_]
  have hcc := sqrt_spread_mul_self
  have hc0 : 0 ≤ Real.sqrt (lambda_ + n_aug_) := Real.sqrt_nonneg _
  have hX : (Prediction llt s).Xsig_pred_
      = fun r c => Xsig_aug_ (x_aug_ s) (llt (P_aug_ s)) (Fin.castLE (by norm_num) r) c := by
    have h : (Prediction llt s).Xsig_pred_
        = fun r c => predictSigmaPoint s.delta_t
            (column (Xsig_aug_ (x_aug_ s) (llt (P_aug_ s))) c) r :=
      predictSigmaPoints_eq _ _ _
    rw [h, hdt]
    funext r c
    rw [predictSigmaPoint_zero_time]
    rfl
  have hx : (Prediction llt s).x_ = s.x_ := by
    funext r
    rw [Prediction_x_apply, hdt]
    simp only [predictSigmaPoint_zero_time, column]
    rw [weighted_sigma_sum, x_aug_castLE]
  refine ⟨hx, ?_⟩
  intro a b
  have hd0 : column (Prediction llt s).Xsig_pred_ 0 - (Prediction llt s).x_ = 0 := by
    funext r
    rw [hx, hX]
    simp only [column, Pi.sub_apply, Pi.zero_apply]
    rw [(Xsig_aug_entries _ _ _ 0).1, x_aug_castLE, sub_self]
  have hdp : ∀ k : Fin 7,
      column (Prediction llt s).Xsig_pred_ ⟨k.val + 1, by omega⟩ - (Prediction llt s).x_
        = fun r => Real.sqrt (lambda_ + n_aug_)
            * llt (P_aug_ s) (Fin.castLE (by norm_num) r) k := by
    intro k
    funext r
    rw [hx, hX]
    simp only [column, Pi.sub_apply]
    rw [(Xsig_aug_entries _ _ _ k).2.1, x_aug_castLE]
    ring
  have hdm : ∀ k : Fin 7,
      column (Prediction llt s).Xsig_pred_ ⟨k.val + 1 + 7, by omega⟩ - (Prediction llt s).x_
        = fun r => -(Real.sqrt (lambda_ + n_aug_)
            * llt (P_aug_ s) (Fin.castLE (by norm_num) r) k) := by
    intro k
    funext r
    rw [hx, hX]
    simp only [column, Pi.sub_apply]
    rw [(Xsig_aug_entries _ _ _ k).2.2, x_aug_castLE]
    ring
  have hbound : ∀ k : Fin 7,
      -Real.pi ≤ Real.sqrt (lambda_ + n_aug_) * llt (P_aug_ s) 3 k
        ∧ Real.sqrt (lambda_ + n_aug_) * llt (P_aug_ s) 3 k ≤ Real.pi := by
    intro k
    have h := hspread k
    rw [← hc5, ← abs_of_nonneg hc0, ← abs_mul] at h
    exact abs_le.mp h
  have hnp : ∀ k : Fin 7,
      normalizeAngles 3 (fun r : Fin 5 => Real.sqrt (lambda_ + n_aug_)
          * llt (P_aug_ s) (Fin.castLE (by norm_num) r) k)
        = fun r : Fin 5 => Real.sqrt (lambda_ + n_aug_)
          * llt (P_aug_ s) (Fin.castLE (by norm_num) r) k := by
    intro k
    apply normalizeAngles_of_mem_Icc 3 (by norm_num)
    exact ⟨(hbound k).1, (hbound k).2⟩
  have hnm : ∀ k : Fin 7,
      normalizeAngles 3 (fun r : Fin 5 => -(Real.sqrt (lambda_ + n_aug_)
          * llt (P_aug_ s) (Fin.castLE (by norm_num) r) k))
        = fun r : Fin 5 => -(Real.sqrt (lambda_ + n_aug_)
          * llt (P_aug_ s) (Fin.castLE (by norm_num) r) k) := by
    intro k
    apply normalizeAngles_of_mem_Icc 3 (by norm_num)
    exact ⟨neg_le_neg (hbound k).2, neg_le.mpr (hbound k).1⟩
  rw [(Prediction_Predicted llt s).2, sum_sigma_columns]
  simp only [hd0, hdp, hdm, hnp, hnm, normalizeAngles_zero, Matrix.add_apply,
    Matrix.sum_apply, vecMulVec_apply, Pi.smul_apply, smul_eq_mul, Pi.zero_apply,
    mul_zero, zero_add]
  rw [← Finset.sum_add_distrib]
  apply Finset.sum_congr rfl
  intro k _
  rw [Prediction_weights_values, Prediction_weights_values, (sigma_weight_values k).2.1,
    (sigma_weight_values k).2.2]
  have e : ∀ p q : ℝ,
      1 / 10 * (Real.sqrt (lambda_ + n_aug_) * p) * (Real.sqrt (lambda_ + n_aug_) * q)
        + 1 / 10 * -(Real.sqrt (lambda_ + n_aug_) * p) * -(Real.sqrt (lambda_ + n_aug_) * q)
      = 1 / 5 * (Real.sqrt (lambda_ + n_aug_) * Real.sqrt (lambda_ + n_aug_)) * (p * q) :=
    fun p q => by ring
  rw [e, hcc]
  ring

/-- C19: `Prediction` with zero elapsed time is the identity on the belief: if
`delta_t = 0`, the square root `A` used for the sigma points satisfies
`A * A^T = P_aug_`, and every heading spread `sqrt 5 * |A(3,k)|` is at most `pi`, then the
predicted mean equals the prior mean and the predicted covariance equals the prior
covariance. -/
theorem prediction_zero_time_identity
    (llt : Matrix (Fin 7) (Fin 7) ℝ → Matrix (Fin 7) (Fin 7) ℝ) (s : State)
    (hdt : s.delta_t = 0)
    (hroot : llt (P_aug_ s) * (llt (P_aug_ s))ᵀ = P_aug_ s)
    (hspread : ∀ k : Fin 7, Real.sqrt 5 * |llt (P_aug_ s) 3 k| ≤ Real.pi) :
    (Prediction llt s).x_ = s.x_ ∧ (Prediction llt s).P_ = s.P_ := by
  have h := Prediction_zero_time llt s hdt hspread
  refine ⟨h.1, ?_⟩
  ext a b
  rw [h.2 a b, ← P_aug_castLE s a b]
  conv_rhs => rw [← hroot]
  rw [Matrix.mul_apply]
  rfl

/-! ## Sample predictions over zero elapsed time -/

theorem P_aug_of_scalar (s : State) (c : ℝ) (h : s.P_ = Matrix.diagonal (fun _ => c)) :
    P_aug_ s = Matrix.diagonal (augmentedDiagonal c) := by
  ext i j
  obtain ⟨iv, hi⟩ := i
  obtain ⟨jv, hj⟩ := j
  interval_cases iv <;> interval_cases jv <;>
    simp only [P_aug_, augmentedDiagonal, Matrix.diagonal_apply, Fin.mk.injEq, Fin.val_mk, h] <;>
    norm_num [Q, std_a_, std_yawdd_]

theorem sampleLlt_diagonal_mul_transpose (d : Fin 7 → ℝ) (hd : ∀ i, 0 ≤ d i) :
    sampleLlt (Matrix.diagonal d) * (sampleLlt (Matrix.diagonal d))ᵀ = Matrix.diagonal d := by
  unfold sampleLlt
  rw [Matrix.diagonal_transpose, Matrix.diagonal_mul_diagonal]
  simp only [Matrix.diagonal_apply_eq]
  rw [show (fun i => Real.sqrt (d i) * Real.sqrt (d i)) = d from
    funext (fun i => Real.mul_self_sqrt (hd i))]

theorem sqrt_five_le_pi : Real.sqrt 5 ≤ Real.pi := by
  have h3 : Real.sqrt 5 ≤ 3 := by
    rw [Real.sqrt_le_left (by norm_num)]
    norm_num
  linarith [Real.pi_gt_three]

theorem unitStorage_P_aug : P_aug_ unitStorage = Matrix.diagonal (augmentedDiagonal 1) :=
  P_aug_of_scalar unitStorage 1 (by
    show (1 : Matrix (Fin 5) (Fin 5) ℝ) = _
    rw [Matrix.diagonal_one])

theorem augmentedDiagonal_one_nonneg (i : Fin 7) : 0 ≤ augmentedDiagonal 1 i := by
  unfold augmentedDiagonal
  split_ifs <;> norm_num

theorem unitStorage_spread (k : Fin 7) :
    Real.sqrt 5 * |sampleLlt (P_aug_ unitStorage) 3 k| ≤ Real.pi := by
  rw [unitStorage_P_aug]
  unfold sampleLlt
  by_cases hk : (3 : Fin 7) = k
  · subst hk
    have h1 : augmentedDiagonal 1 3 = 1 := by
      unfold augmentedDiagonal
      exact if_pos (by decide)
    simp only [Matrix.diagonal_apply_eq, h1, Real.sqrt_one, abs_one, mul_one]
    exact sqrt_five_le_pi
  · rw [Matrix.diagonal_apply_ne _ hk]
    simp only [abs_zero, mul_zero]
    exact Real.pi_pos.le

/-- Witness for C19: with zero elapsed time, the identity as covariance and the diagonal
Cholesky factor `diag(1, 1, 1, 1, 1, 3, 1/2)` of the augmented covariance, `Prediction`
returns the prior mean and the identity. -/
theorem prediction_zero_time_identity_witness :
    (unitStorage.delta_t = 0
        ∧ sampleLlt (P_aug_ unitStorage) * (sampleLlt (P_aug_ unitStorage))ᵀ
            = P_aug_ unitStorage
        ∧ ∀ k : Fin 7, Real.sqrt 5 * |sampleLlt (P_aug_ unitStorage) 3 k| ≤ Real.pi)
      ∧ (Prediction sampleLlt unitStorage).x_ = 0
      ∧ (Prediction sampleLlt unitStorage).P_ = 1 :=
  have hroot : sampleLlt (P_aug_ unitStorage) * (sampleLlt (P_aug_ unitStorage))ᵀ
      = P_aug_ unitStorage := by
    rw [unitStorage_P_aug]
    exact sampleLlt_diagonal_mul_transpose _ augmentedDiagonal_one_nonneg
  ⟨⟨rfl, hroot, unitStorage_spread⟩,
    prediction_zero_time_identity sampleLlt unitStorage rfl hroot unitStorage_spread⟩

/-! ## C11: a covariance that is not positive-definite -/

theorem negativeStorage_P_aug :
    P_aug_ negativeStorage = Matrix.diagonal (augmentedDiagonal (-1)) :=
  P_aug_of_scalar negativeStorage (-1) (by
    show (-1 : Matrix (Fin 5) (Fin 5) ℝ) = _
    rw [← Matrix.diagonal_one, ← Matrix.diagonal_neg])

theorem lowerTriangle_diagonal (d : Fin 7 → ℝ) :
    lowerTriangle (Matrix.diagonal d) = Matrix.diagonal d := by
  ext i j
  unfold lowerTriangle
  by_cases h : i = j
  · subst h
    simp
  · simp [Matrix.diagonal_apply_ne _ h]

theorem negativeStorage_not_posDef : ¬ (P_aug_ negativeStorage).PosDef := by
  rw [negativeStorage_P_aug, Matrix.posDef_diagonal_iff]
  intro h
  have h0 := h 0
  simp [augmentedDiagonal] at h0
  linarith

theorem negativeStorage_prediction (s : State) (hP : s.P_ = -1) (hdt : s.delta_t = 0) :
    (Prediction lowerTriangle s).x_ = s.x_ ∧ (Prediction lowerTriangle s).P_ = 1 := by
  have hPa : P_aug_ s = Matrix.diagonal (augmentedDiagonal (-1)) :=
    P_aug_of_scalar s (-1) (by
      rw [hP, ← Matrix.diagonal_one, ← Matrix.diagonal_neg])
  have hA : lowerTriangle (P_aug_ s) = Matrix.diagonal (augmentedDiagonal (-1)) := by
    rw [hPa, lowerTriangle_diagonal]
  have hspread : ∀ k : Fin 7, Real.sqrt 5 * |lowerTriangle (P_aug_ s) 3 k| ≤ Real.pi := by
    intro k
    rw [hA]
    by_cases hk : (3 : Fin 7) = k
    · subst hk
      have h1 : augmentedDiagonal (-1) 3 = -1 := by
        unfold augmentedDiagonal
        exact if_pos (by decide)
      simp only [Matrix.diagonal_apply_eq, h1, abs_neg, abs_one, mul_one]
      exact sqrt_five_le_pi
    · rw [Matrix.diagonal_apply_ne _ hk]
      simp only [abs_zero, mul_zero]
      exact Real.pi_pos.le
  have h := Prediction_zero_time lowerTriangle s hdt hspread
  refine ⟨h.1, ?_⟩
  ext a b
  rw [h.2 a b, hA]
  have hd : ∀ r : Fin 5, augmentedDiagonal (-1) (Fin.castLE (by norm_num) r) = -1 := by
    intro r
    unfold augmentedDiagonal
    exact if_pos (by simp)
  by_cases hab : a = b
  · subst hab
    rw [Finset.sum_eq_single (Fin.castLE (by norm_num) a)]
    · simp [hd]
    · intro k _ hk
      rw [Matrix.diagonal_apply_ne _ (Ne.symm hk)]
      simp
    · simp
  · rw [Matrix.one_apply_ne hab]
    apply Finset.sum_eq_zero
    intro k _
    by_cases hk : Fin.castLE (by norm_num : 5 ≤ 7) a = k
    · have hb : Fin.castLE (by norm_num : 5 ≤ 7) b ≠ k := by
        intro e
        apply hab
        have := hk.trans e.symm
        exact Fin.castLE_injective _ this
      rw [Matrix.diagonal_apply_ne _ hb]
      simp
    · rw [Matrix.diagonal_apply_ne _ hk]
      simp

theorem neg_one_not_posSemidef : ¬ (-1 : Matrix (Fin 5) (Fin 5) ℝ).PosSemidef := by
  intro h
  have h0 := h.2 (Pi.single 0 1)
  simp [Matrix.neg_mulVec] at h0
  linarith

/-- C11 (amended): when the augmented covariance built at sigma-point generation is not
positive-definite, the cycle does not fail and nothing is signalled: whatever matrix the
square-root routine returns, `Prediction` generates the sigma points from it and overwrites
`x_` and `P_` with their weighted mean and covariance, and a `ProcessMeasurement` call for
an enabled measurement on an initialised filter goes on to the update of the sensor type
as in any other cycle. -/
theorem prediction_overwrites_without_check
    (llt : Matrix (Fin 7) (Fin 7) ℝ → Matrix (Fin 7) (Fin 7) ℝ) (s : State)
    (m : MeasurementPackage)
    (_hnpd : ¬ (P_aug_ s).PosDef) :
    (Prediction llt s).Xsig_pred_
        = (fun r c => predictSigmaPoint s.delta_t
            (column (Xsig_aug_ (x_aug_ s) (llt (P_aug_ s))) c) r)
      ∧ (Prediction llt s).x_
          = ∑ i : Fin 15, (Prediction llt s).weights_ i • column (Prediction llt s).Xsig_pred_ i
      ∧ (Prediction llt s).P_
          = ∑ i : Fin 15,
              vecMulVec
                ((Prediction llt s).weights_ i • normalizeAngles 3
                  (column (Prediction llt s).Xsig_pred_ i - (Prediction llt s).x_))
                (normalizeAngles 3
                  (column (Prediction llt s).Xsig_pred_ i - (Prediction llt s).x_))
      ∧ (isSupported s m = true → 0 ≤ s.time_us_ →
          P_aug_ (init s m).2 = P_aug_ s
            ∧ ProcessMeasurement llt s m
              = (if m.sensor_type_ = SensorType.RADAR then
                  UpdateRadar (Prediction llt (init s m).2) m
                else UpdateLidar (Prediction llt (init s m).2) m)) := by
  have hp := Prediction_Predicted llt s
  refine ⟨predictSigmaPoints_eq _ _ _, hp.1, hp.2, ?_⟩
  intro hen hinit
  have ht' : ¬ s.time_us_ < 0 := not_lt.mpr hinit
  constructor
  · unfold init
    rw [if_neg ht']
    rfl
  · unfold ProcessMeasurement init
    simp [hen, ht']

/-- Witness for C11 (amended): minus the identity as covariance gives an augmented
covariance that is not positive-definite; `Prediction` still overwrites the covariance,
here with the identity. -/
theorem prediction_overwrites_without_check_witness :
    ¬ (P_aug_ negativeStorage).PosDef
      ∧ (Prediction lowerTriangle negativeStorage).P_
          = ∑ i : Fin 15,
              vecMulVec
                ((Prediction lowerTriangle negativeStorage).weights_ i • normalizeAngles 3
                  (column (Prediction lowerTriangle negativeStorage).Xsig_pred_ i
                    - (Prediction lowerTriangle negativeStorage).x_))
                (normalizeAngles 3
                  (column (Prediction lowerTriangle negativeStorage).Xsig_pred_ i
                    - (Prediction lowerTriangle negativeStorage).x_)) :=
  ⟨negativeStorage_not_posDef,
    (prediction_overwrites_without_check lowerTriangle negativeStorage (sampleLaser 0)
      negativeStorage_not_posDef).2.2.1⟩

/-- Counterexample to C11 as stated: the filter holds minus the identity as covariance,
so the augmented covariance `diag(-1, -1, -1, -1, -1, 9, 1/4)` is not positive-definite and
the factorisation stops at the first pivot, leaving the lower triangle of its input.
`Prediction` (elapsed time 0) nevertheless replaces the covariance by the identity, and the
whole `ProcessMeasurement` call for a laser reading at the same time stamp runs the update
and leaves a positive-semidefinite covariance, which is not the prior one: the prior
covariance is overwritten and no failure is reported. -/
theorem prediction_not_positive_definite_overwrites :
    ¬ (P_aug_ negativeStorage).PosDef
      ∧ (Prediction lowerTriangle negativeStorage).P_ = 1
      ∧ (Prediction lowerTriangle negativeStorage).P_ ≠ negativeStorage.P_
      ∧ isSupported negativeStorage (sampleLaser 0) = true
      ∧ ¬ (P_aug_ (init negativeStorage (sampleLaser 0)).2).PosDef
      ∧ ((ProcessMeasurement lowerTriangle negativeStorage (sampleLaser 0)).P_).PosSemidef
      ∧ (ProcessMeasurement lowerTriangle negativeStorage (sampleLaser 0)).P_
          ≠ negativeStorage.P_ := by
  have hpred := negativeStorage_prediction negativeStorage rfl rfl
  have hne : (1 : Matrix (Fin 5) (Fin 5) ℝ) ≠ -1 := by
    intro e
    have := congrFun (congrFun e 0) 0
    norm_num at this
  have hinit : (init negativeStorage (sampleLaser 0)).2.P_ = -1
      ∧ (init negativeStorage (sampleLaser 0)).2.delta_t = 0 := by
    unfold init
    rw [if_neg (by simp [negativeStorage, sampleStorage])]
    refine ⟨rfl, ?_⟩
    simp [negativeStorage, sampleStorage, sampleLaser]
  have hPaug : P_aug_ (init negativeStorage (sampleLaser 0)).2 = P_aug_ negativeStorage := by
    unfold init
    rw [if_neg (by simp [negativeStorage, sampleStorage])]
    rfl
  have hcycle : ProcessMeasurement lowerTriangle negativeStorage (sampleLaser 0)
      = UpdateLidar (Prediction lowerTriangle (init negativeStorage (sampleLaser 0)).2)
          (sampleLaser 0) := by
    unfold ProcessMeasurement
    simp [isSupported, negativeStorage, sampleStorage, sampleLaser, init]
  have hpsd : ((ProcessMeasurement lowerTriangle negativeStorage (sampleLaser 0)).P_).PosSemidef := by
    rw [hcycle, UpdateLidar_P_eq _ (Prediction_Predicted _ _)]
    apply kalman_update_posSemidef _ measurementMatrix laser_R _ laser_R_posDef
    rw [(negativeStorage_prediction _ hinit.1 hinit.2).2]
    exact PosSemidef.one
  refine ⟨negativeStorage_not_posDef, hpred.2, ?_, rfl, ?_, hpsd, ?_⟩
  · rw [hpred.2]
    exact hne
  · rw [hPaug]
    exact negativeStorage_not_posDef
  · intro e
    rw [e] at hpsd
    exact neg_one_not_posSemidef hpsd

/-! ## C16: the two branches of the motion model agree in the limit -/

theorem turning_x_tendsto (v yaw dt : ℝ) :
    Filter.Tendsto (fun yawd : ℝ => (v / yawd) * (Real.sin (yaw + yawd * dt) - Real.sin yaw))
      (nhdsWithin 0 {0}ᶜ) (nhds (v * Real.cos yaw * dt)) := by
  have hin : HasDerivAt (fun t : ℝ => yaw + t * dt) dt 0 := by
    simpa using ((hasDerivAt_id (0 : ℝ)).mul_const dt).const_add yaw
  have hd : HasDerivAt (fun t : ℝ => Real.sin (yaw + t * dt)) (Real.cos (yaw + 0 * dt) * dt) 0 :=
    hin.sin
  have ht := (hd.tendsto_slope_zero).const_mul v
  have e : v * (Real.cos (yaw + 0 * dt) * dt) = v * Real.cos yaw * dt := by
    simp; ring
  rw [e] at ht
  refine ht.congr (fun t => ?_)
  simp only [zero_add, zero_mul, add_zero, smul_eq_mul]
  ring

theorem turning_y_tendsto (v yaw dt : ℝ) :
    Filter.Tendsto
      (fun yawd : ℝ => (v / yawd) * (-Real.cos (yaw + yawd * dt) + Real.cos yaw))
      (nhdsWithin 0 {0}ᶜ) (nhds (v * Real.sin yaw * dt)) := by
  have hin : HasDerivAt (fun t : ℝ => yaw + t * dt) dt 0 := by
    simpa using ((hasDerivAt_id (0 : ℝ)).mul_const dt).const_add yaw
  have hd : HasDerivAt (fun t : ℝ => -Real.cos (yaw + t * dt))
      (-(-Real.sin (yaw + 0 * dt) * dt)) 0 := hin.cos.neg
  have ht := (hd.tendsto_slope_zero).const_mul v
  have e : v * (-(-Real.sin (yaw + 0 * dt) * dt)) = v * Real.sin yaw * dt := by
    simp; ring
  rw [e] at ht
  refine ht.congr (fun t => ?_)
  simp only [zero_add, zero_mul, add_zero, smul_eq_mul]
  ring

/-- C16: for every fixed speed `v`, heading `psi` and elapsed time `dt`, as the turn rate
`psid` tends to 0 (through non-zero values) the displacement of the turning branch,
`((v/psid)(sin(psi + psid dt) - sin psi), (v/psid)(-cos(psi + psid dt) + cos psi), 0,
psid dt, 0)`, converges to the displacement of the straight branch at turn rate 0,
`(v cos(psi) dt, v sin(psi) dt, 0, 0, 0)`. -/
theorem turningDisplacement_tendsto_straight (v yaw dt : ℝ) :
    Filter.Tendsto (fun yawd : ℝ => turningDisplacement v yaw yawd dt)
        (nhdsWithin 0 {0}ᶜ) (nhds (straightDisplacement v yaw 0 dt))
      ∧ straightDisplacement v yaw 0 dt
          = ![v * Real.cos yaw * dt, v * Real.sin yaw * dt, 0, 0, 0] := by
  have hs : straightDisplacement v yaw 0 dt
      = ![v * Real.cos yaw * dt, v * Real.sin yaw * dt, 0, 0, 0] := by
    unfold straightDisplacement
    rw [zero_mul]
  refine ⟨?_, hs⟩
  rw [hs, tendsto_pi_nhds]
  intro i
  fin_cases i
  · exact turning_x_tendsto v yaw dt
  · exact turning_y_tendsto v yaw dt
  · exact tendsto_const_nhds
  · have hc : Filter.Tendsto (fun yawd : ℝ => yawd * dt) (nhds 0) (nhds (0 * dt)) :=
      (continuous_id.mul continuous_const).tendsto 0
    rw [zero_mul] at hc
    exact tendsto_nhdsWithin_of_tendsto_nhds hc
  · exact tendsto_const_nhds

/-! ## The checked functions and the total ones -/

theorem UpdateLidarChecked_of_det_ne (s : State) (m : MeasurementPackage)
    (h : (lidarS s).det ≠ 0) : UpdateLidarChecked s m = some (UpdateLidar s m) := by
  unfold UpdateLidarChecked
  rw [if_neg h]

theorem UpdateLidarChecked_some (s s' : State) (m : MeasurementPackage)
    (h : UpdateLidarChecked s m = some s') : (lidarS s).det ≠ 0 ∧ s' = UpdateLidar s m := by
  unfold UpdateLidarChecked at h
  split_ifs at h with hd
  exact ⟨hd, (Option.some.inj h).symm⟩

theorem UpdateRadarChecked_some (s s' : State) (m : MeasurementPackage)
    (h : UpdateRadarChecked s m = some s') :
    (∀ i : Fin 15, radarRange s i ≠ 0) ∧ (radarS s).det ≠ 0 ∧ s' = UpdateRadar s m := by
  unfold UpdateRadarChecked at h
  split_ifs at h with hd
  push_neg at hd
  exact ⟨hd.1, hd.2, (Option.some.inj h).symm⟩

theorem ProcessMeasurementChecked_some
    (llt : Matrix (Fin 7) (Fin 7) ℝ → Matrix (Fin 7) (Fin 7) ℝ)
    (s s' : State) (m : MeasurementPackage)
    (h : ProcessMeasurementChecked llt s m = some s') : s' = ProcessMeasurement llt s m := by
  unfold ProcessMeasurementChecked at h
  unfold ProcessMeasurement
  by_cases hs : isSupported s m = true
  · simp only [hs, Bool.not_true, Bool.false_eq_true, if_false] at h ⊢
    by_cases hov : 0 ≤ s.time_us_
        ∧ ¬ (-(2 : ℤ) ^ 63 ≤ m.timestamp_ - s.time_us_
          ∧ m.timestamp_ - s.time_us_ < (2 : ℤ) ^ 63)
    · rw [if_pos hov] at h
      exact absurd h (by simp)
    · rw [if_neg hov] at h
      by_cases hr : (init s m).1 = true
      · simp only [hr, if_true] at h ⊢
        by_cases hm : m.sensor_type_ = SensorType.RADAR
        · rw [if_pos hm] at h ⊢
          exact (UpdateRadarChecked_some _ _ _ h).2.2
        · rw [if_neg hm] at h ⊢
          exact (UpdateLidarChecked_some _ _ _ h).2
      · simp only [hr, if_false] at h ⊢
        exact (Option.some.inj h).symm
  · have hf : isSupported s m = false := by simpa using hs
    simp only [hf, Bool.not_false, if_true] at h ⊢
    exact (Option.some.inj h).symm

theorem ProcessMeasurementChecked_cycle
    (llt : Matrix (Fin 7) (Fin 7) ℝ → Matrix (Fin 7) (Fin 7) ℝ)
    (s : State) (m : MeasurementPackage)
    (hen : isSupported s m = true) (hinit : 0 ≤ s.time_us_)
    (hfit : -(2 : ℤ) ^ 63 ≤ m.timestamp_ - s.time_us_
      ∧ m.timestamp_ - s.time_us_ < (2 : ℤ) ^ 63) :
    ProcessMeasurementChecked llt s m
      = if m.sensor_type_ = SensorType.RADAR then
          UpdateRadarChecked (Prediction llt (init s m).2) m
        else UpdateLidarChecked (Prediction llt (init s m).2) m := by
  have ht' : ¬ s.time_us_ < 0 := not_lt.mpr hinit
  have h1 : (init s m).1 = true := by
    unfold init
    rw [if_neg ht']
  unfold ProcessMeasurementChecked
  simp only [hen, Bool.not_true, Bool.false_eq_true, if_false, hinit, hfit, not_true_eq_false,
    and_false, and_self, h1, if_true]

theorem processAllChecked_append
    (llt : Matrix (Fin 7) (Fin 7) ℝ → Matrix (Fin 7) (Fin 7) ℝ)
    (s s1 : State) (history : List MeasurementPackage) (m : MeasurementPackage)
    (h : processAllChecked llt s history = some s1) :
    processAllChecked llt s (history ++ [m]) = ProcessMeasurementChecked llt s1 m := by
  unfold processAllChecked at h ⊢
  rw [List.foldlM_append, h]
  simp

/-! ## The laser update after a prediction that returns the identity -/

theorem identity_prediction (s : State) (hP : s.P_ = 1) (hdt : s.delta_t = 0) :
    (Prediction sampleLlt s).x_ = s.x_ ∧ (Prediction sampleLlt s).P_ = 1 := by
  have hPa : P_aug_ s = Matrix.diagonal (augmentedDiagonal 1) :=
    P_aug_of_scalar s 1 (by rw [hP, Matrix.diagonal_one])
  have hroot : sampleLlt (P_aug_ s) * (sampleLlt (P_aug_ s))ᵀ = P_aug_ s := by
    rw [hPa]
    exact sampleLlt_diagonal_mul_transpose _ augmentedDiagonal_one_nonneg
  have hspread : ∀ k : Fin 7, Real.sqrt 5 * |sampleLlt (P_aug_ s) 3 k| ≤ Real.pi := by
    intro k
    have h := unitStorage_spread k
    rw [unitStorage_P_aug] at h
    rw [hPa]
    exact h
  have h := Prediction_zero_time sampleLlt s hdt hspread
  refine ⟨h.1, ?_⟩
  ext a b
  rw [h.2 a b, ← hP, ← P_aug_castLE s a b]
  conv_rhs => rw [← hroot]
  rw [Matrix.mul_apply]
  rfl

theorem measurementMatrix_mul_transpose_self :
    measurementMatrix * (1 : Matrix (Fin 5) (Fin 5) ℝ) * measurementMatrixᵀ = 1 := by
  ext a b
  rw [measurementMatrix_mul_mul]
  fin_cases a <;> fin_cases b <;> simp [castLE_one_two_five]

theorem lidarS_of_identity (s : State) (hs : Predicted s) (hP : s.P_ = 1) :
    lidarS s = Matrix.diagonal (fun _ => (409 / 400 : ℝ)) := by
  unfold lidarS
  rw [lidar_S_eq s hs, hP, measurementMatrix_mul_transpose_self]
  ext a b
  fin_cases a <;> fin_cases b <;> simp [laser_R, std_laspx_, std_laspy_] <;> norm_num

theorem lidarS_of_identity_inv (s : State) (hs : Predicted s) (hP : s.P_ = 1) :
    (lidarS s)⁻¹ = Matrix.diagonal (fun _ => (400 / 409 : ℝ)) := by
  rw [lidarS_of_identity s hs hP]
  apply Matrix.inv_eq_right_inv
  rw [Matrix.diagonal_mul_diagonal, ← Matrix.diagonal_one]
  rw [show (fun i : Fin 2 => (409 / 400 : ℝ) * (400 / 409)) = fun _ => 1 from
    funext (fun _ => by norm_num)]

theorem lidarS_of_identity_det (s : State) (hs : Predicted s) (hP : s.P_ = 1) :
    (lidarS s).det ≠ 0 := by
  rw [lidarS_of_identity s hs hP, Matrix.det_diagonal]
  simp

theorem UpdateLidar_x_lidarS (s : State) (m : MeasurementPackage) :
    (UpdateLidar s m).x_
      = s.x_ + (calculateCrossCorrelationMatrix s (lidarPrediction s).1 (lidarPrediction s).2
            false * (lidarS s)⁻¹)
          *ᵥ (![m.raw_measurements_ 0, m.raw_measurements_ 1] - (lidarPrediction s).2) :=
  rfl

theorem UpdateLidar_P_lidarS (s : State) (m : MeasurementPackage) :
    (UpdateLidar s m).P_
      = s.P_ - (calculateCrossCorrelationMatrix s (lidarPrediction s).1 (lidarPrediction s).2
            false * (lidarS s)⁻¹) * lidarS s
          * (calculateCrossCorrelationMatrix s (lidarPrediction s).1 (lidarPrediction s).2
            false * (lidarS s)⁻¹)ᵀ :=
  rfl

theorem lidar_gain_of_identity (s : State) (hs : Predicted s) (hP : s.P_ = 1) (b : Fin 2) :
    (calculateCrossCorrelationMatrix s (lidarPrediction s).1 (lidarPrediction s).2 false
        * (lidarS s)⁻¹) 0 b = if b = 0 then 400 / 409 else 0 := by
  rw [lidar_Tc_eq s hs, lidarS_of_identity_inv s hs hP, Matrix.mul_diagonal,
    mul_measurementMatrix_transpose, hP]
  fin_cases b
  · simp
    exact Matrix.one_apply_eq 0
  · simp [castLE_one_two_five]

theorem UpdateLidar_of_identity (s : State) (hs : Predicted s) (hP : s.P_ = 1)
    (m : MeasurementPackage) :
    (UpdateLidar s m).x_ 0 = s.x_ 0 + 400 / 409 * (m.raw_measurements_ 0 - s.x_ 0)
      ∧ (UpdateLidar s m).P_ 0 0 = 9 / 409 := by
  have hK := lidar_gain_of_identity s hs hP
  constructor
  · rw [UpdateLidar_x_lidarS, Pi.add_apply, Matrix.mulVec, Matrix.dotProduct,
      Fin.sum_univ_two, hK 0, hK 1, lidar_z_pred_eq s hs]
    simp
  · rw [UpdateLidar_P_lidarS]
    generalize calculateCrossCorrelationMatrix s (lidarPrediction s).1 (lidarPrediction s).2
      false * (lidarS s)⁻¹ = K at hK ⊢
    rw [lidarS_of_identity s hs hP, Matrix.sub_apply, Matrix.mul_apply, Fin.sum_univ_two,
      Matrix.transpose_apply, Matrix.transpose_apply, Matrix.mul_diagonal,
      Matrix.mul_diagonal, hK 0, hK 1, hP]
    simp
    norm_num

/-! ## C8: a laser reading equal to the predicted measurement -/

/-- C8 (amended): for every state handed to `UpdateLidar` (any predicted sigma points,
weights, mean and covariance) whose innovation covariance `S` is invertible, and every
LASER measurement whose two values equal the predicted measurement mean `z_pred` computed
by `UpdateLidar`, the update is defined, leaves the mean `x_` equal to the predicted mean
and sets `NIS_laser_` to 0. -/
theorem updateLidarChecked_at_predicted_measurement (s : State) (m : MeasurementPackage)
    (hdet : (lidarS s).det ≠ 0)
    (h0 : m.raw_measurements_ 0 = (lidarPrediction s).2 0)
    (h1 : m.raw_measurements_ 1 = (lidarPrediction s).2 1) :
    UpdateLidarChecked s m = some (UpdateLidar s m)
      ∧ (UpdateLidar s m).x_ = s.x_ ∧ (UpdateLidar s m).NIS_laser_ = 0 := by
  have hz : (![m.raw_measurements_ 0, m.raw_measurements_ 1] : Fin 2 → ℝ)
      - (lidarPrediction s).2 = 0 := by
    funext r
    fin_cases r
    · simp [h0]
    · simp [h1]
  refine ⟨UpdateLidarChecked_of_det_ne s m hdet, ?_, ?_⟩
  · rw [UpdateLidar_x_lidarS, hz]
    simp
  · unfold UpdateLidar updateState
    simp [hz]

/-- Witness for C8 (amended): after `Prediction` from the identity covariance (elapsed time
0) the innovation covariance is `diag(1.0225, 1.0225)` and the gain is not zero: the
laser reading `(3, 4)` moves the first mean component to `1200/409`, while the reading
`(0, 0)`, equal to the predicted measurement, leaves the mean and gives NIS 0. -/
theorem updateLidarChecked_at_predicted_measurement_witness :
    ((lidarS (Prediction sampleLlt unitStorage)).det ≠ 0
        ∧ (originLaser 5).raw_measurements_ 0
            = (lidarPrediction (Prediction sampleLlt unitStorage)).2 0
        ∧ (originLaser 5).raw_measurements_ 1
            = (lidarPrediction (Prediction sampleLlt unitStorage)).2 1)
      ∧ (UpdateLidar (Prediction sampleLlt unitStorage) (sampleLaser 5)).x_ 0 = 1200 / 409
      ∧ UpdateLidarChecked (Prediction sampleLlt unitStorage) (originLaser 5)
          = some (UpdateLidar (Prediction sampleLlt unitStorage) (originLaser 5))
      ∧ (UpdateLidar (Prediction sampleLlt unitStorage) (originLaser 5)).x_
          = (Prediction sampleLlt unitStorage).x_
      ∧ (UpdateLidar (Prediction sampleLlt unitStorage) (originLaser 5)).NIS_laser_ = 0 :=
  have hs := Prediction_Predicted sampleLlt unitStorage
  have hid := identity_prediction unitStorage rfl rfl
  have hx : (Prediction sampleLlt unitStorage).x_ = 0 := hid.1
  have hdet := lidarS_of_identity_det _ hs hid.2
  have hz0 : (originLaser 5).raw_measurements_ 0
      = (lidarPrediction (Prediction sampleLlt unitStorage)).2 0 := by
    rw [lidar_z_pred_eq _ hs, hx]
    simp [originLaser]
  have hz1 : (originLaser 5).raw_measurements_ 1
      = (lidarPrediction (Prediction sampleLlt unitStorage)).2 1 := by
    rw [lidar_z_pred_eq _ hs, hx]
    simp [originLaser]
  ⟨⟨hdet, hz0, hz1⟩,
    by
      rw [(UpdateLidar_of_identity _ hs hid.2 (sampleLaser 5)).1, hx]
      simp [sampleLaser]
      norm_num,
    updateLidarChecked_at_predicted_measurement (Prediction sampleLlt unitStorage)
      (originLaser 5) hdet hz0 hz1⟩

theorem sum_first_two_columns (f : Fin 15 → ℝ) (h : ∀ i : Fin 15, 2 ≤ i.val → f i = 0) :
    ∑ i : Fin 15, f i = f 0 + f 1 := by
  rw [Fin.sum_univ_succ, Fin.sum_univ_succ, Finset.sum_eq_zero, add_zero]
  · rfl
  · intro i _
    apply h
    simp

theorem singularStorage_entries :
    (lidarPrediction singularStorage).2 = 0
      ∧ lidarS singularStorage 0 0 = 0 ∧ lidarS singularStorage 0 1 = 0 := by
  have hz : (lidarPrediction singularStorage).2 = 0 := by
    rw [lidarPrediction_eq]
    funext a
    simp only [Finset.sum_apply, Pi.smul_apply, smul_eq_mul, Pi.zero_apply]
    rw [sum_first_two_columns]
    · fin_cases a <;> simp [singularStorage, sampleStorage]
    · intro i hi
      have h0 : ¬ (i.val = 0 ∨ i.val = 1) := by omega
      simp [singularStorage, sampleStorage, h0]
  have hS : ∀ a b : Fin 2, lidarS singularStorage a b
      = ∑ i : Fin 15, singularStorage.weights_ i
          * (![singularStorage.Xsig_pred_ 0 i, singularStorage.Xsig_pred_ 1 i] : Fin 2 → ℝ) a
          * (![singularStorage.Xsig_pred_ 0 i, singularStorage.Xsig_pred_ 1 i] : Fin 2 → ℝ) b
        + laser_R a b := by
    intro a b
    unfold lidarS
    rw [calculateMeasurementCovarianceMatrix_eq, hz, lidarPrediction_eq]
    simp only [Matrix.add_apply, Matrix.sum_apply, vecMulVec_apply, Pi.smul_apply, smul_eq_mul,
      Bool.false_eq_true, if_false, column, sub_zero, Pi.sub_apply, Pi.zero_apply]
  refine ⟨hz, ?_, ?_⟩
  · rw [hS, sum_first_two_columns]
    · simp [singularStorage, sampleStorage, laser_R, std_laspx_]
      norm_num
    · intro i hi
      have h0 : ¬ (i.val = 0 ∨ i.val = 1) := by omega
      simp [singularStorage, sampleStorage, h0]
  · rw [hS, sum_first_two_columns]
    · simp [singularStorage, sampleStorage, laser_R]
    · intro i hi
      have h0 : ¬ (i.val = 0 ∨ i.val = 1) := by omega
      simp [singularStorage, sampleStorage, h0]

/-- Counterexample to C8 as stated: a state whose sigma points `(0.15, 0)` and
`(-0.15, 0)` carry the weight `-1/2` each has the predicted measurement `(0, 0)` and the
innovation covariance `diag(0, 0.0225)`, whose determinant is 0.  For the laser reading
`(0, 0)`, equal to the predicted measurement, `S.inverse()` divides by that determinant
and the mean and `NIS_laser_` come out as NaN: the update has no real-valued result, so
the mean is not left equal to the predicted mean and the NIS is not 0. -/
theorem updateLidar_singular_innovation_covariance :
    (originLaser 5).raw_measurements_ 0 = (lidarPrediction singularStorage).2 0
      ∧ (originLaser 5).raw_measurements_ 1 = (lidarPrediction singularStorage).2 1
      ∧ (lidarS singularStorage).det = 0
      ∧ UpdateLidarChecked singularStorage (originLaser 5) = none
      ∧ ¬ ∃ s' : State, UpdateLidarChecked singularStorage (originLaser 5) = some s'
          ∧ s'.x_ = singularStorage.x_ ∧ s'.NIS_laser_ = 0 := by
  have h := singularStorage_entries
  have hdet : (lidarS singularStorage).det = 0 := by
    rw [Matrix.det_fin_two, h.2.1, h.2.2]
    ring
  have hnone : UpdateLidarChecked singularStorage (originLaser 5) = none := by
    unfold UpdateLidarChecked
    rw [if_pos hdet]
  refine ⟨by rw [h.1]; simp [originLaser], by rw [h.1]; simp [originLaser], hdet, hnone, ?_⟩
  rintro ⟨s', hs', _⟩
  rw [hnone] at hs'
  exact absurd hs' (by simp)

/-- Witness for C10: after `Prediction` from the identity covariance (elapsed time 0,
true Cholesky factor) the covariance is the identity, which is positive-semidefinite; the
laser update has a non-zero gain and lowers the first diagonal entry from 1 to `9/409`,
and the result is positive-semidefinite. -/
theorem updateLidar_covariance_posSemidef_witness :
    ((Prediction sampleLlt unitStorage).P_).PosSemidef
      ∧ (Prediction sampleLlt unitStorage).P_ 0 0 = 1
      ∧ (UpdateLidar (Prediction sampleLlt unitStorage) (sampleLaser 5)).P_ 0 0 = 9 / 409
      ∧ ((UpdateLidar (Prediction sampleLlt unitStorage) (sampleLaser 5)).P_).PosSemidef :=
  have hid := identity_prediction unitStorage rfl rfl
  have hpsd : ((Prediction sampleLlt unitStorage).P_).PosSemidef := by
    rw [hid.2]
    exact PosSemidef.one
  ⟨hpsd, by rw [hid.2]; exact Matrix.one_apply_eq 0,
    (UpdateLidar_of_identity _ (Prediction_Predicted sampleLlt unitStorage) hid.2
      (sampleLaser 5)).2,
    (updateLidar_covariance_posSemidef sampleLlt unitStorage (sampleLaser 5) hpsd).1⟩

/-! ## C9: the covariance stays symmetric -/

theorem ProcessMeasurementChecked_first
    (llt : Matrix (Fin 7) (Fin 7) ℝ → Matrix (Fin 7) (Fin 7) ℝ)
    (s : State) (m : MeasurementPackage)
    (hen : isSupported s m = true) (ht : s.time_us_ < 0) :
    ProcessMeasurementChecked llt s m = some (specInitOnly s m) := by
  have h1 : (init s m).1 = false := by
    unfold init
    cases m.sensor_type_ <;> simp [ht]
  have h2 : (init s m).2 = specInitOnly s m := by
    unfold init specInitOnly
    cases m.sensor_type_ <;> simp [ht]
  have hn : ¬ (0 ≤ s.time_us_
      ∧ ¬ (-(2 : ℤ) ^ 63 ≤ m.timestamp_ - s.time_us_
        ∧ m.timestamp_ - s.time_us_ < (2 : ℤ) ^ 63)) := fun h => absurd h.1 (not_le.mpr ht)
  unfold ProcessMeasurementChecked
  simp only [hen, Bool.not_true, Bool.false_eq_true, if_false, hn, h1, h2]

theorem Prediction_zero_time_first_column
    (llt : Matrix (Fin 7) (Fin 7) ℝ → Matrix (Fin 7) (Fin 7) ℝ) (s : State)
    (hdt : s.delta_t = 0) (r : Fin 5) :
    (Prediction llt s).Xsig_pred_ r 0 = s.x_ r := by
  have h : (Prediction llt s).Xsig_pred_
      = fun r c => predictSigmaPoint s.delta_t
          (column (Xsig_aug_ (x_aug_ s) (llt (P_aug_ s))) c) r :=
    predictSigmaPoints_eq _ _ _
  rw [h, hdt]
  simp only [predictSigmaPoint_zero_time, column]
  rw [(Xsig_aug_entries _ _ _ 0).1, x_aug_castLE]

/-- C9 (amended): after any number of `ProcessMeasurement` calls in each of which the
arithmetic of the code is defined (the subtraction of the time stamps fits a `long long`,
no predicted sigma point of a RADAR update has range `rho = 0`, and the innovation
covariance `S` is invertible), a call that runs the predict/update cycle, that is, one for
an enabled measurement on an initialised filter, `Prediction` followed by `UpdateLidar` or
`UpdateRadar`, leaves a covariance `P_` that equals its own transpose. -/
theorem processMeasurementChecked_cycle_covariance_symmetric
    (llt : Matrix (Fin 7) (Fin 7) ℝ → Matrix (Fin 7) (Fin 7) ℝ)
    (s s1 s2 : State) (history : List MeasurementPackage) (m : MeasurementPackage)
    (hhist : processAllChecked llt s history = some s1)
    (hen : isSupported s1 m = true)
    (hinit : 0 ≤ s1.time_us_)
    (hcycle : ProcessMeasurementChecked llt s1 m = some s2) :
    processAllChecked llt s (history ++ [m]) = some s2
      ∧ s2 = (if m.sensor_type_ = SensorType.RADAR then
            UpdateRadar (Prediction llt (init s1 m).2) m
          else UpdateLidar (Prediction llt (init s1 m).2) m)
      ∧ (s2.P_)ᵀ = s2.P_ := by
  have e := ProcessMeasurementChecked_some llt s1 s2 m hcycle
  refine ⟨by rw [processAllChecked_append llt s s1 history m hhist, hcycle], ?_, ?_⟩
  · have ht' : ¬ s1.time_us_ < 0 := not_lt.mpr hinit
    rw [e]
    unfold ProcessMeasurement init
    simp [hen, ht']
  · rw [e, ProcessMeasurement_cycle llt s1 m hen hinit]
    exact specFullCycle_P_symm llt s1 m

theorem Prediction_zero_time_posSemidef
    (llt : Matrix (Fin 7) (Fin 7) ℝ → Matrix (Fin 7) (Fin 7) ℝ) (s : State)
    (hdt : s.delta_t = 0)
    (hspread : ∀ k : Fin 7, Real.sqrt 5 * |llt (P_aug_ s) 3 k| ≤ Real.pi) :
    ((Prediction llt s).P_).PosSemidef := by
  have h := (Prediction_zero_time llt s hdt hspread).2
  have e : (Prediction llt s).P_
      = (Matrix.of fun (a : Fin 5) (k : Fin 7) => llt (P_aug_ s) (Fin.castLE (by norm_num) a) k)
        * (Matrix.of fun (a : Fin 5) (k : Fin 7) =>
            llt (P_aug_ s) (Fin.castLE (by norm_num) a) k)ᴴ := by
    ext a b
    rw [h a b, Matrix.mul_apply]
    simp [Matrix.conjTranspose_apply]
  rw [e]
  exact Matrix.posSemidef_self_mul_conjTranspose _

theorem lidarS_det_ne_of_posSemidef (s : State) (hs : Predicted s)
    (hP : (s.P_).PosSemidef) : (lidarS s).det ≠ 0 := by
  have hHPH : (measurementMatrix * s.P_ * measurementMatrixᵀ).PosSemidef := by
    have := hP.mul_mul_conjTranspose_same measurementMatrix
    rwa [conjTranspose_eq_transpose_of_trivial] at this
  have hS : (lidarS s).PosDef := by
    unfold lidarS
    rw [lidar_S_eq s hs]
    exact PosDef.posSemidef_add hHPH laser_R_posDef
  exact ne_of_gt hS.det_pos

theorem sampleLlt_spread (M : Matrix (Fin 7) (Fin 7) ℝ) (h : M 3 3 = 1) (k : Fin 7) :
    Real.sqrt 5 * |sampleLlt M 3 k| ≤ Real.pi := by
  unfold sampleLlt
  by_cases hk : (3 : Fin 7) = k
  · subst hk
    simp only [Matrix.diagonal_apply_eq, h, Real.sqrt_one, abs_one, mul_one]
    exact sqrt_five_le_pi
  · rw [Matrix.diagonal_apply_ne _ hk]
    simp only [abs_zero, mul_zero]
    exact Real.pi_pos.le

theorem fresh_laser_then_laser_cycle :
    processAllChecked sampleLlt (construct true true sampleStorage) [originLaser 0]
        = some (specInitOnly (construct true true sampleStorage) (originLaser 0))
      ∧ ProcessMeasurementChecked sampleLlt
          (specInitOnly (construct true true sampleStorage) (originLaser 0)) (sampleLaser 0)
        = some (UpdateLidar (Prediction sampleLlt
            (init (specInitOnly (construct true true sampleStorage) (originLaser 0))
              (sampleLaser 0)).2) (sampleLaser 0)) := by
  have hfirst : ProcessMeasurementChecked sampleLlt (construct true true sampleStorage)
      (originLaser 0)
        = some (specInitOnly (construct true true sampleStorage) (originLaser 0)) :=
    ProcessMeasurementChecked_first _ _ _ rfl (by simp [construct])
  have ht : 0 ≤ (specInitOnly (construct true true sampleStorage) (originLaser 0)).time_us_ := by
    simp [specInitOnly, originLaser]
  have hi : (init (specInitOnly (construct true true sampleStorage) (originLaser 0))
        (sampleLaser 0)).2.delta_t = 0
      ∧ (init (specInitOnly (construct true true sampleStorage) (originLaser 0))
        (sampleLaser 0)).2.P_ 3 3 = 1 := by
    unfold init
    rw [if_neg (not_lt.mpr ht)]
    refine ⟨?_, ?_⟩
    · simp [specInitOnly, originLaser, sampleLaser]
    · simp [specInitOnly, originLaser, lidarInit]
  have h33 : P_aug_ (init (specInitOnly (construct true true sampleStorage) (originLaser 0))
      (sampleLaser 0)).2 3 3 = 1 := by
    rw [← hi.2]
    exact P_aug_castLE _ 3 3
  have hpsd := Prediction_zero_time_posSemidef sampleLlt _ hi.1 (sampleLlt_spread _ h33)
  refine ⟨?_, ?_⟩
  · show List.foldlM _ _ _ = _
    rw [List.foldlM_cons, hfirst]
    simp
  · rw [ProcessMeasurementChecked_cycle sampleLlt
      (specInitOnly (construct true true sampleStorage) (originLaser 0)) (sampleLaser 0) rfl ht
      (by simp [specInitOnly, originLaser, sampleLaser])]
    rw [if_neg (by simp [sampleLaser])]
    exact UpdateLidarChecked_of_det_ne _ _
      (lidarS_det_ne_of_posSemidef _ (Prediction_Predicted _ _) hpsd)

/-- Witness for C9 (amended): a freshly constructed filter with both sensors on is
initialised by the laser reading `(0, 0)` at time 0 and then processes the laser reading
`(3, 4)` at the same time stamp: every division of that cycle is defined, and the
covariance it leaves equals its own transpose. -/
theorem processMeasurementChecked_cycle_covariance_symmetric_witness :
    (processAllChecked sampleLlt (construct true true sampleStorage) [originLaser 0]
          = some (specInitOnly (construct true true sampleStorage) (originLaser 0))
        ∧ isSupported (specInitOnly (construct true true sampleStorage) (originLaser 0))
            (sampleLaser 0) = true
        ∧ 0 ≤ (specInitOnly (construct true true sampleStorage) (originLaser 0)).time_us_
        ∧ ProcessMeasurementChecked sampleLlt
            (specInitOnly (construct true true sampleStorage) (originLaser 0)) (sampleLaser 0)
          = some (UpdateLidar (Prediction sampleLlt
              (init (specInitOnly (construct true true sampleStorage) (originLaser 0))
                (sampleLaser 0)).2) (sampleLaser 0)))
      ∧ processAllChecked sampleLlt (construct true true sampleStorage)
          ([originLaser 0] ++ [sampleLaser 0])
        = some (UpdateLidar (Prediction sampleLlt
            (init (specInitOnly (construct true true sampleStorage) (originLaser 0))
              (sampleLaser 0)).2) (sampleLaser 0))
      ∧ ((UpdateLidar (Prediction sampleLlt
            (init (specInitOnly (construct true true sampleStorage) (originLaser 0))
              (sampleLaser 0)).2) (sampleLaser 0)).P_)ᵀ
          = (UpdateLidar (Prediction sampleLlt
              (init (specInitOnly (construct true true sampleStorage) (originLaser 0))
                (sampleLaser 0)).2) (sampleLaser 0)).P_ :=
  have ht : 0 ≤ (specInitOnly (construct true true sampleStorage) (originLaser 0)).time_us_ := by
    simp [specInitOnly, originLaser]
  have h := processMeasurementChecked_cycle_covariance_symmetric sampleLlt
    (construct true true sampleStorage)
    (specInitOnly (construct true true sampleStorage) (originLaser 0)) _
    [originLaser 0] (sampleLaser 0) fresh_laser_then_laser_cycle.1 rfl ht
    fresh_laser_then_laser_cycle.2
  ⟨⟨fresh_laser_then_laser_cycle.1, rfl, ht, fresh_laser_then_laser_cycle.2⟩, h.1, h.2.2⟩

/-- Counterexample to C9 as stated: a freshly constructed filter with both sensors on is
initialised by the laser reading `(0, 0)` at time 0 and then given a radar reading at
time 0.  The second call runs the cycle (enabled measurement, initialised filter); with
elapsed time 0 the first predicted sigma point is the mean, at the origin, so its range
`rho` is 0, `ukf.cpp:290` computes `0/0`, and `x_`, `P_` and `NIS_radar_` become NaN: the
call has no real-valued result, and in particular no covariance equal to its transpose. -/
theorem processMeasurement_radar_at_origin_undefined :
    ProcessMeasurementChecked sampleLlt (construct true true sampleStorage) (originLaser 0)
        = some (specInitOnly (construct true true sampleStorage) (originLaser 0))
      ∧ isSupported (specInitOnly (construct true true sampleStorage) (originLaser 0))
          (sampleRadar 0) = true
      ∧ 0 ≤ (specInitOnly (construct true true sampleStorage) (originLaser 0)).time_us_
      ∧ radarRange (Prediction sampleLlt
          (init (specInitOnly (construct true true sampleStorage) (originLaser 0))
            (sampleRadar 0)).2) 0 = 0
      ∧ ProcessMeasurementChecked sampleLlt
          (specInitOnly (construct true true sampleStorage) (originLaser 0)) (sampleRadar 0)
          = none
      ∧ processAllChecked sampleLlt (construct true true sampleStorage)
          [originLaser 0, sampleRadar 0] = none
      ∧ ¬ ∃ s2 : State, ProcessMeasurementChecked sampleLlt
            (specInitOnly (construct true true sampleStorage) (originLaser 0)) (sampleRadar 0)
            = some s2 ∧ (s2.P_)ᵀ = s2.P_ := by
  have hfirst : ProcessMeasurementChecked sampleLlt (construct true true sampleStorage)
      (originLaser 0)
        = some (specInitOnly (construct true true sampleStorage) (originLaser 0)) :=
    ProcessMeasurementChecked_first _ _ _ rfl (by simp [construct])
  have ht : 0 ≤ (specInitOnly (construct true true sampleStorage) (originLaser 0)).time_us_ := by
    simp [specInitOnly, originLaser]
  have hi : (init (specInitOnly (construct true true sampleStorage) (originLaser 0))
        (sampleRadar 0)).2.delta_t = 0
      ∧ (init (specInitOnly (construct true true sampleStorage) (originLaser 0))
        (sampleRadar 0)).2.x_ 0 = 0
      ∧ (init (specInitOnly (construct true true sampleStorage) (originLaser 0))
        (sampleRadar 0)).2.x_ 1 = 0 := by
    unfold init
    rw [if_neg (not_lt.mpr ht)]
    refine ⟨?_, ?_, ?_⟩
    · simp [specInitOnly, originLaser, sampleRadar]
    · simp [specInitOnly, originLaser, lidarInit]
    · simp [specInitOnly, originLaser, lidarInit]
  have hrange : radarRange (Prediction sampleLlt
      (init (specInitOnly (construct true true sampleStorage) (originLaser 0))
        (sampleRadar 0)).2) 0 = 0 := by
    unfold radarRange
    rw [Prediction_zero_time_first_column _ _ hi.1, Prediction_zero_time_first_column _ _ hi.1,
      hi.2.1, hi.2.2]
    simp
  have hsecond : ProcessMeasurementChecked sampleLlt
      (specInitOnly (construct true true sampleStorage) (originLaser 0)) (sampleRadar 0)
      = none := by
    rw [ProcessMeasurementChecked_cycle sampleLlt
      (specInitOnly (construct true true sampleStorage) (originLaser 0)) (sampleRadar 0) rfl ht
      (by simp [specInitOnly, originLaser, sampleRadar])]
    rw [if_pos (by simp [sampleRadar])]
    unfold UpdateRadarChecked
    rw [if_pos (Or.inl ⟨0, hrange⟩)]
  refine ⟨hfirst, rfl, ht, hrange, hsecond, ?_, ?_⟩
  · show List.foldlM _ _ _ = none
    rw [List.foldlM_cons, hfirst]
    simp [hsecond]
  · rintro ⟨s2, h2, _⟩
    rw [hsecond] at h2
    exact absurd h2 (by simp)

/-! ## C13: the elapsed time and the clock -/

theorem wrapLongLong_of_fits (x : ℤ) (hlo : -(2 : ℤ) ^ 63 ≤ x) (hhi : x < (2 : ℤ) ^ 63) :
    wrapLongLong x = x := by
  unfold wrapLongLong
  rw [Int.emod_eq_of_lt (by linarith) (by linarith)]
  ring

/-- C13 (amended): for an initialised filter whose clock holds `t0` (not negative) and an
enabled measurement with time stamp `t` whose difference `t - t0` fits the `long long` in
which the code computes it (every `t >= t0` does), `ProcessMeasurement` runs `Prediction`
on the state whose `delta_t` is `(t - t0) / 1000000`, the value the 64-bit subtraction
delivers, and then the update of the sensor type, and leaves the clock equal to `t`; any
measurements of a switched-off sensor that come in between leave the clock (and
everything else) alone, so the elapsed time counts from the last processed measurement. -/
theorem processMeasurement_elapsed_time
    (llt : Matrix (Fin 7) (Fin 7) ℝ → Matrix (Fin 7) (Fin 7) ℝ)
    (s : State) (skipped : List MeasurementPackage) (m : MeasurementPackage)
    (hinit : 0 ≤ s.time_us_)
    (hskip : ∀ d ∈ skipped, isSupported s d = false)
    (hen : isSupported s m = true)
    (hlo : -(2 : ℤ) ^ 63 ≤ m.timestamp_ - s.time_us_)
    (hhi : m.timestamp_ - s.time_us_ < (2 : ℤ) ^ 63) :
    (processAll llt s skipped).time_us_ = s.time_us_
      ∧ processAll llt s (skipped ++ [m]) = ProcessMeasurement llt s m
      ∧ ProcessMeasurement llt s m
          = (if m.sensor_type_ = SensorType.RADAR then
              UpdateRadar (Prediction llt { s with
                delta_t := ((m.timestamp_ - s.time_us_ : ℤ) : ℝ) / 1000000
                time_us_ := m.timestamp_ }) m
            else
              UpdateLidar (Prediction llt { s with
                delta_t := ((m.timestamp_ - s.time_us_ : ℤ) : ℝ) / 1000000
                time_us_ := m.timestamp_ }) m)
      ∧ (ProcessMeasurement llt s m).delta_t
          = ((m.timestamp_ : ℝ) - (s.time_us_ : ℝ)) / 1000000
      ∧ machineDeltaT s m = ((m.timestamp_ : ℝ) - (s.time_us_ : ℝ)) / 1000000
      ∧ (ProcessMeasurement llt s m).time_us_ = m.timestamp_ := by
  have hd := processAll_disabled llt s skipped hskip
  have hc := ProcessMeasurement_cycle llt s m hen hinit
  refine ⟨by rw [hd], ?_, ?_, ?_, ?_, ?_⟩
  · show List.foldl (ProcessMeasurement llt) s (skipped ++ [m]) = _
    rw [List.foldl_append]
    show ProcessMeasurement llt (processAll llt s skipped) m = _
    rw [hd]
  · rw [hc]
    unfold specFullCycle
    cases m.sensor_type_ <;> simp
  · rw [hc]
    unfold specFullCycle
    cases m.sensor_type_ <;> simp [UpdateLidar, UpdateRadar, updateState, Prediction]
  · unfold machineDeltaT
    rw [wrapLongLong_of_fits _ hlo hhi]
    push_cast
    norm_num
  · rw [hc]
    exact (specFullCycle_frame llt s m).2.2

/-- Witness for C13 (amended): an initialised filter with the laser off and the clock at 0
skips a laser reading at time 400000 and processes the radar reading at time 1000000 with
an elapsed time of one second. -/
theorem processMeasurement_elapsed_time_witness :
    (0 ≤ radarOnlyStorage.time_us_
        ∧ (∀ d ∈ [sampleLaser 400000], isSupported radarOnlyStorage d = false)
        ∧ isSupported radarOnlyStorage (sampleRadar 1000000) = true
        ∧ -(2 : ℤ) ^ 63 ≤ (sampleRadar 1000000).timestamp_ - radarOnlyStorage.time_us_
        ∧ (sampleRadar 1000000).timestamp_ - radarOnlyStorage.time_us_ < (2 : ℤ) ^ 63)
      ∧ (ProcessMeasurement sampleLlt radarOnlyStorage (sampleRadar 1000000)).delta_t = 1
      ∧ (ProcessMeasurement sampleLlt radarOnlyStorage (sampleRadar 1000000)).time_us_
          = 1000000 :=
  ⟨⟨by simp [radarOnlyStorage, sampleStorage],
      by simp [isSupported, radarOnlyStorage, sampleStorage, sampleLaser],
      by simp [isSupported, radarOnlyStorage, sampleStorage, sampleRadar],
      by simp [radarOnlyStorage, sampleStorage, sampleRadar],
      by simp [radarOnlyStorage, sampleStorage, sampleRadar]⟩,
    by
      have h := (processMeasurement_elapsed_time sampleLlt radarOnlyStorage
        [sampleLaser 400000] (sampleRadar 1000000)
        (by simp [radarOnlyStorage, sampleStorage])
        (by simp [isSupported, radarOnlyStorage, sampleStorage, sampleLaser])
        (by simp [isSupported, radarOnlyStorage, sampleStorage, sampleRadar])
        (by simp [radarOnlyStorage, sampleStorage, sampleRadar])
        (by simp [radarOnlyStorage, sampleStorage, sampleRadar])).2.2.2
      refine ⟨?_, h.2.2⟩
      rw [h.1]
      simp [radarOnlyStorage, sampleStorage, sampleRadar]⟩

/-- Counterexample to C13 as stated: an initialised filter whose clock holds `t0 = 1` is
given an enabled laser measurement with the time stamp `t = -2^63`, the least `long long`.
The difference `t - t0 = -2^63 - 1` does not fit a `long long`: the subtraction at
`ukf.cpp:67` overflows, the wrapped value is `2^63 - 1`, and `delta_t` is
`(2^63 - 1) / 1000000`, not `(t - t0) / 1000000`. -/
theorem processMeasurement_elapsed_time_overflow :
    isSupported clockOneStorage (sampleLaser (-9223372036854775808)) = true
      ∧ 0 ≤ clockOneStorage.time_us_
      ∧ (-(2 : ℤ) ^ 63 ≤ (sampleLaser (-9223372036854775808)).timestamp_
          ∧ (sampleLaser (-9223372036854775808)).timestamp_ < (2 : ℤ) ^ 63)
      ∧ ¬ (-(2 : ℤ) ^ 63 ≤ (sampleLaser (-9223372036854775808)).timestamp_
          - clockOneStorage.time_us_)
      ∧ machineDeltaT clockOneStorage (sampleLaser (-9223372036854775808))
          = 9223372036854775807 / 1000000
      ∧ machineDeltaT clockOneStorage (sampleLaser (-9223372036854775808))
          ≠ (((sampleLaser (-9223372036854775808)).timestamp_ : ℝ)
              - (clockOneStorage.time_us_ : ℝ)) / 1000000
      ∧ ProcessMeasurementChecked sampleLlt clockOneStorage
          (sampleLaser (-9223372036854775808)) = none := by
  have ht : (sampleLaser (-9223372036854775808)).timestamp_ = -9223372036854775808 := rfl
  have h0 : clockOneStorage.time_us_ = 1 := rfl
  have hw : wrapLongLong (-9223372036854775808 - 1) = 9223372036854775807 := by
    unfold wrapLongLong
    norm_num
  have hm : machineDeltaT clockOneStorage (sampleLaser (-9223372036854775808))
      = 9223372036854775807 / 1000000 := by
    unfold machineDeltaT
    rw [ht, h0, hw]
    norm_num
  refine ⟨rfl, by rw [h0]; norm_num, by rw [ht]; norm_num, by rw [ht, h0]; norm_num, hm,
    ?_, ?_⟩
  · rw [hm, ht, h0]
    norm_num
  · unfold ProcessMeasurementChecked
    rw [if_neg (by simp [isSupported, clockOneStorage, sampleStorage, sampleLaser])]
    rw [if_pos]
    rw [ht, h0]
    norm_num

end UKF
